import Mathlib

set_option maxRecDepth 4000

/-!
# Verification of the pyWaveLine transient/acquisition streaming protocol

Shallow embedding of the `waveline` Python package (modules `_common.py`,
`conditionwave.py`, `spotwave.py`): the key-value line parser, numeric
coercions, the filter-description parser (a backtracking matcher for the
exact regular expression used by the source), the transient-data framing
loops of both devices, the channel/settings state machine of the
multi-channel device, the per-channel binary stream generator and the
continuous-acquisition polling loop.

Modelling conventions:
* bytes are `Nat` values (0..255), byte strings are `List Nat`;
* text is `List Char`;
* Python `int` is `ℤ`, Python `float` is modelled by `ℚ` (exact arithmetic;
  IEEE-754 rounding of `float`/`float32` is not modelled);
* fallible code returns `Except`;
* reads from a transport are explicit functions of the byte stream.
-/

/-- ASCII whitespace, the byte/character class `\s` of Python's `re` for the
ASCII inputs exchanged by this protocol. -/
def isSpc (c : Char) : Bool :=
  c = ' ' || c = '\t' || c = '\n' || c = '\r' || c = '\x0b' || c = '\x0c'

/-- Characters allowed in a key of the pattern `KV_PATTERN`,
`([^\s=]+)(?:\s*=\s*(\S+))?`: anything that is neither whitespace nor `=`. -/
def isKeyChar (c : Char) : Bool := !isSpc c && c != '='

/-- Python `str.strip()` / `bytes.strip()`: drop whitespace from both ends. -/
def pyStrip (s : List Char) : List Char :=
  ((s.dropWhile isSpc).reverse.dropWhile isSpc).reverse

/-- Digit string to natural number (decimal). -/
def natOfDigits (s : List Char) : ℕ :=
  s.foldl (fun a c => 10 * a + (c.toNat - 48)) 0

/-- Python `int(string)`: strip whitespace, optional sign, then a nonempty
run of decimal digits; `none` models a raised `ValueError`. (Underscore
separators and non-ASCII digits accepted by Python are not modelled; the
protocol never produces them.) -/
def intParse (s0 : List Char) : Option ℤ :=
  let s := pyStrip s0
  let (sign, s1) : ℤ × List Char :=
    match s with
    | '+' :: r => (1, r)
    | '-' :: r => (-1, r)
    | _ => (1, s)
  if s1 ≠ [] ∧ s1.all Char.isDigit then some (sign * natOfDigits s1) else none

/-- Exponent suffix of a Python float literal: empty, or `e`/`E` followed by
an optional sign and a nonempty digit run; `none` models a parse failure. -/
def expParse (s : List Char) : Option ℤ :=
  match s with
  | [] => some 0
  | 'e' :: r | 'E' :: r =>
    let (sign, r1) : ℤ × List Char :=
      match r with
      | '+' :: t => (1, t)
      | '-' :: t => (-1, t)
      | _ => (1, r)
    if r1 ≠ [] ∧ r1.all Char.isDigit then some (sign * natOfDigits r1) else none
  | _ => none

/-- Syntactic part of Python `float(string)` on finite decimal literals:
strip, optional sign, mantissa `digits[.digits]` or `.digits` (at least one
digit), optional exponent.  Returns
`(sign, integer part, fraction digits value, fraction length, exponent)`;
`none` models a raised `ValueError`.  (The special tokens `inf`/`nan`,
which have no `ℚ` value, are not modelled; the claims never exercise
them.) -/
def decParseParts (s0 : List Char) : Option (ℤ × ℕ × ℕ × ℕ × ℤ) :=
  let s := pyStrip s0
  let (sign, s1) : ℤ × List Char :=
    match s with
    | '+' :: r => (1, r)
    | '-' :: r => (-1, r)
    | _ => (1, s)
  let ipart := s1.takeWhile Char.isDigit
  let rest := s1.dropWhile Char.isDigit
  match rest with
  | '.' :: r =>
    let fpart := r.takeWhile Char.isDigit
    let rest2 := r.dropWhile Char.isDigit
    if ipart = [] ∧ fpart = [] then none
    else
      (expParse rest2).map fun e =>
        (sign, natOfDigits ipart, natOfDigits fpart, fpart.length, e)
  | _ =>
    if ipart = [] then none
    else (expParse rest).map fun e => (sign, natOfDigits ipart, 0, 0, e)

/-- Value of a parsed decimal literal. -/
def decVal : ℤ × ℕ × ℕ × ℕ × ℤ → ℚ
  | (sign, ip, fp, flen, e) => sign * ((ip : ℚ) + (fp : ℚ) / 10 ^ flen) * 10 ^ e

/-- Python `float(string)` on finite decimal literals (see
`decParseParts`). -/
def decParse (s0 : List Char) : Option ℚ :=
  (decParseParts s0).map decVal

/-- One scanning step bound for `kvFindall`. -/
def kvFindallF : ℕ → List Char → List (List Char × List Char)
  | 0, _ => []
  | _, [] => []
  | fuel + 1, c :: s =>
    if isKeyChar c then
      -- a match of `KV_PATTERN` starts here: greedy key `[^\s=]+` ...
      let key := (c :: s).takeWhile isKeyChar
      let after := (c :: s).drop key.length
      -- ... then the optional greedy `\s*=\s*(\S+)` value group
      let t1 := after.dropWhile isSpc
      match t1 with
      | '=' :: t2 =>
        let t3 := t2.dropWhile isSpc
        let v := t3.takeWhile (fun ch => !isSpc ch)
        if v ≠ [] then (key, v) :: kvFindallF fuel (t3.drop v.length)
        else (key, []) :: kvFindallF fuel after
      | _ => (key, []) :: kvFindallF fuel after
    else kvFindallF fuel s

/-- `re.findall(KV_PATTERN, line)`: the non-overlapping matches of
`([^\s=]+)(?:\s*=\s*(\S+))?`, scanning left to right. A bare key (no `=`
follows) is paired with the empty string, as Python's `findall` yields `b''`
for an unmatched group. -/
def kvFindall (s : List Char) : List (List Char × List Char) :=
  kvFindallF (s.length + 1) s

/-- `dict(...)` built from the key-value pairs: the last occurrence of a
duplicate key wins; `none` models a `KeyError` on lookup. -/
def kvLookup (kvs : List (List Char × List Char)) (k : List Char) : Option (List Char) :=
  (kvs.reverse.find? fun p => decide (p.1 = k)).map Prod.snd

/-- Errors raised by the embedded code paths. -/
inductive PErr where
  | keyError        -- dict lookup of a missing key
  | valueError      -- int()/float()/np.frombuffer argument error
  | incompleteRead  -- asyncio.IncompleteReadError from readexactly
  | assertionError  -- failed assert
  | runtimeError    -- explicit RuntimeError raise
  | indexError      -- list index out of range
  | outOfFuel       -- recursion bound (unreachable: fuel exceeds stream length)
  | notConnected       -- ValueError("Device not connected")
  | invalidChannel     -- ValueError from _check_channel_number
  | invalidRange       -- ValueError("Invalid range...")
  | invalidDecimation  -- ValueError("Decimation factor must be in ...")
  deriving DecidableEq, Repr

/-- `as_int` from `_common.py`:
`int(string.strip().partition(" ")[0] or default)`. -/
def asInt (s : List Char) (default : ℤ) : Except PErr ℤ :=
  let token := (pyStrip s).takeWhile (fun c => c ≠ ' ')
  if token = [] then .ok default
  else match intParse token with
    | some v => .ok v
    | none => .error .valueError

/-- `as_float` from `_common.py`:
`float(string.strip().partition(" ")[0] or default)`. -/
def asFloat (s : List Char) (default : ℚ) : Except PErr ℚ :=
  let token := (pyStrip s).takeWhile (fun c => c ≠ ' ')
  if token = [] then .ok default
  else match decParse token with
    | some v => .ok v
    | none => .error .valueError

/-!
## Backtracking matcher for the filter-setup regular expression

`parse_filter_setup_line` in `_common.py` applies
`re.match(r"\s*(?P<hp>\S+)\s*-\s*(?P<lp>\S+)\s+.*o(rder)?\D*(?P<order>\d)",
line, flags=re.IGNORECASE)`.  The matcher below implements Python's
leftmost, greedy, backtracking semantics for the element shapes this
pattern uses: character classes, greedy `*` and `+` over a class (a `+` is
written as the class followed by its star), literals (case-insensitive for
letters), an optional literal word, and capture groups over a class or over
a greedy `+` run.  `re.match` anchors at the start only; trailing input is
allowed.  Captures are recorded on the way out of the successful branch.
-/

/-- Capture-group tags of the filter-setup pattern. -/
inductive GTag where
  | hp | lp | ord
  deriving DecidableEq, Repr

/-- Captured groups (`None` = group did not participate). -/
structure Caps where
  hp : Option (List Char) := none
  lp : Option (List Char) := none
  ord : Option (List Char) := none
  deriving DecidableEq, Repr

/-- Record a capture. -/
def setCap (t : GTag) (v : List Char) (c : Caps) : Caps :=
  match t with
  | .hp => { c with hp := some v }
  | .lp => { c with lp := some v }
  | .ord => { c with ord := some v }

/-- Strict `orElse` on optional captures: the backtracking engine computes
the greedy branch first and falls back to the alternative on failure. -/
def ore (a b : Option Caps) : Option Caps :=
  match a with
  | some x => some x
  | none => b

/-- Pattern elements (the `gext` state is created by the engine while
extending a greedy capture group). -/
inductive RElem where
  | cls (p : Char → Bool)                   -- one character of a class
  | star (p : Char → Bool)                  -- greedy `p*`
  | lit (c : Char)                          -- exact literal character
  | litCI (c : Char)                        -- case-insensitive literal (lowercase)
  | optStr (cs : List Char)                 -- optional literal word, greedy, CI
  | gcls (t : GTag) (p : Char → Bool)       -- capture group over one class char
  | gplus (t : GTag) (p : Char → Bool)      -- capture group over greedy `p+`
  | gext (t : GTag) (p : Char → Bool) (acc : List Char)  -- group being extended

/-- Case-insensitive literal word as a prefix; returns the rest. -/
def litPfxCI : List Char → List Char → Option (List Char)
  | [], s => some s
  | _ :: _, [] => none
  | c :: cs, x :: xs => if x.toLower = c then litPfxCI cs xs else none

/-- One step of the backtracking matcher.  The fuel argument strictly
decreases on every call (each call consumes an input character or a pattern
element); `rmatch` supplies enough fuel, so the fuel-out branch is
unreachable. -/
def rmatchF : ℕ → List RElem → List Char → Option Caps
  | 0, _, _ => none
  | _ + 1, [], _ => some {}
  | _ + 1, .cls _ :: _, [] => none
  | fuel + 1, .cls p :: ps, c :: s => if p c then rmatchF fuel ps s else none
  | fuel + 1, .star _ :: ps, [] => rmatchF fuel ps []
  | fuel + 1, .star p :: ps, c :: s =>
    if p c then ore (rmatchF fuel (.star p :: ps) s) (rmatchF fuel ps (c :: s))
    else rmatchF fuel ps (c :: s)
  | _ + 1, .lit _ :: _, [] => none
  | fuel + 1, .lit ch :: ps, c :: s => if c = ch then rmatchF fuel ps s else none
  | _ + 1, .litCI _ :: _, [] => none
  | fuel + 1, .litCI ch :: ps, c :: s => if c.toLower = ch then rmatchF fuel ps s else none
  | fuel + 1, .optStr cs :: ps, s =>
    match litPfxCI cs s with
    | some s1 => ore (rmatchF fuel ps s1) (rmatchF fuel ps s)
    | none => rmatchF fuel ps s
  | _ + 1, .gcls _ _ :: _, [] => none
  | fuel + 1, .gcls t p :: ps, c :: s =>
    if p c then (rmatchF fuel ps s).map (setCap t [c]) else none
  | _ + 1, .gplus _ _ :: _, [] => none
  | fuel + 1, .gplus t p :: ps, c :: s =>
    if p c then rmatchF fuel (.gext t p [c] :: ps) s else none
  | fuel + 1, .gext t _ acc :: ps, [] => (rmatchF fuel ps []).map (setCap t acc)
  | fuel + 1, .gext t p acc :: ps, c :: s =>
    if p c then
      ore (rmatchF fuel (.gext t p (acc ++ [c]) :: ps) s)
        ((rmatchF fuel ps (c :: s)).map (setCap t acc))
    else (rmatchF fuel ps (c :: s)).map (setCap t acc)

/-- `re.match(pattern, s)` for the element shapes above. -/
def rmatch (pat : List RElem) (s : List Char) : Option Caps :=
  rmatchF (s.length + pat.length + 1) pat s

/-- Non-digit class `\D`. -/
def notDigit (c : Char) : Bool := !c.isDigit

/-- Non-whitespace class `\S`. -/
def notSpc (c : Char) : Bool := !isSpc c

/-- `.` without DOTALL: any character except a newline. -/
def notNL (c : Char) : Bool := c != '\n'

/-- The filter-setup pattern
`\s*(?P<hp>\S+)\s*-\s*(?P<lp>\S+)\s+.*o(rder)?\D*(?P<order>\d)` with the
`\s+` written as a class character followed by its star. -/
def filterPattern : List RElem :=
  [.star isSpc, .gplus .hp notSpc,
   .star isSpc, .lit '-', .star isSpc,
   .gplus .lp notSpc,
   .cls isSpc, .star isSpc,
   .star notNL,
   .litCI 'o', .optStr (['r', 'd', 'e', 'r']),
   .star notDigit, .gcls .ord Char.isDigit]

/-- `1e3 * float(g)`, `None` when `float` raises (`khz_or_none` in the
source). -/
def khzOrNone (g : Option (List Char)) : Option ℚ :=
  g.bind fun s => (decParse s).map fun q => 1000 * q

/-- `int(match.group("order"))`; the group is a single digit on every
successful match. -/
def ordVal (g : Option (List Char)) : ℤ :=
  match g with
  | some s => (intParse s).getD 0
  | none => 0

/-- `parse_filter_setup_line` from `_common.py` (also inlined as
`get_filter_settings` in `spotwave.py`): on a match, `1e3 * float(group)`
for each frequency with `None` on a `float` failure, and the order digit;
on no match, `(None, None, 0)`. -/
def parse_filter_setup_line (line : List Char) : Option ℚ × Option ℚ × ℤ :=
  match rmatch filterPattern line with
  | none => (none, none, 0)
  | some caps => (khzOrNone caps.hp, khzOrNone caps.lp, ordVal caps.ord)

/-- Closing points of a greedy group over the run `u` followed by `v`,
longest capture first: exactly the alternatives the backtracking engine
tries for a group whose run ends where `v` starts. -/
def closeSeq (t : GTag) (K : List RElem) (acc : List Char) :
    List Char → List Char → Option Caps
  | [], v => (rmatch K v).map (setCap t acc)
  | c :: u, v =>
    ore (closeSeq t K (acc ++ [c]) u v) ((rmatch K ((c :: u) ++ v)).map (setCap t acc))

/-- Pattern tail after the `\s+` separator: `.*o(rder)?\D*(\d)`. -/
def tailPat : List RElem :=
  [.star notNL, .litCI 'o', .optStr (['r', 'd', 'e', 'r']),
   .star notDigit, .gcls .ord Char.isDigit]

/-- Continuation after the `lp` group: `\s+` then the tail. -/
def lpCont : List RElem := .cls isSpc :: .star isSpc :: tailPat

/-- Pattern from just after the `-`: `\s*(?P<lp>\S+)` then `lpCont`. -/
def lpPat : List RElem := .star isSpc :: .gplus .lp notSpc :: lpCont

/-- Continuation after the `hp` group: `\s*-` then `lpPat`. -/
def hpCont : List RElem := .star isSpc :: .lit '-' :: lpPat

/-- The token standing for an optional frequency in an encoded filter line:
the literal `none` for an absent frequency, the token itself otherwise. -/
def tokOf : Option (List Char) → List Char
  | none => ("none").data
  | some s => s

/-- A well-formed frequency token: nonempty, free of whitespace and of the
separator `-`, and accepted by `float`. -/
def isFreqTok (s : List Char) : Bool :=
  decide (s ≠ []) && s.all (fun c => !isSpc c && c ≠ '-') && (decParseParts s).isSome

/-- The encoded filter-setup line `"<hp>-<lp> kHz, order <k>"`. -/
def encodeFilter (hp lp : Option (List Char)) (k : ℕ) : List Char :=
  tokOf hp ++ '-' :: (tokOf lp ++ (' ' :: 'k' :: 'H' :: 'z' :: ',' :: ' '
    :: 'o' :: 'r' :: 'd' :: 'e' :: 'r' :: ' ' :: [Char.ofNat (48 + k)]))

deriving instance DecidableEq for Except

/-!
## Byte-stream primitives

`ConditionWave` reads lines and exact-length binary payloads from one TCP
stream (`StreamReader.readline` / `readexactly`); `SpotWave` reads lines and
up-to-`n`-byte payloads from a serial port (`Serial.readline` / `read`,
which returns fewer bytes on timeout).  A stream is the list of bytes the
device has sent.
-/

/-- Read one line: everything up to and including the first newline byte
(the whole rest on a stream without a newline). -/
def readline : List ℕ → List ℕ × List ℕ
  | [] => ([], [])
  | b :: r =>
    if b = 10 then ([10], r)
    else
      let (l, rest) := readline r
      (b :: l, rest)

/-- Signed 16-bit value of a little-endian byte pair (`np.int16`). -/
def sint16 (lo hi : ℕ) : ℤ :=
  if lo + 256 * hi < 32768 then (lo + 256 * hi : ℤ) else (lo + 256 * hi : ℤ) - 65536

/-- `np.frombuffer(..., dtype=np.int16)` on an even-length buffer. -/
def decodePairs : List ℕ → List ℤ
  | b0 :: b1 :: r => sint16 b0 b1 :: decodePairs r
  | _ => []

/-- View response bytes as text (the protocol is ASCII). -/
def bytesToChars (l : List ℕ) : List Char := l.map Char.ofNat

/-!
## ConditionWave: channel settings, commands and control operations

`channel_settings` is the local per-channel mirror (`_ChannelSettings`),
`adc2v` the cached `_adc_to_volts` list.  Wire commands are modelled as a
structured datatype (the textual rendering of numbers by f-strings is not
re-modelled); each operation returns the list of commands it wrote together
with its result.  `@_require_connected` raises before the body runs;
`_send_command` itself is also wrapped, so nothing is written while
disconnected.
-/

/-- `_ChannelSettings` of `conditionwave.py`. -/
structure ChannelSettings where
  range_index : ℕ
  decimation : ℤ
  deriving DecidableEq, Repr

/-- Local state of a `ConditionWave` instance. -/
structure CWState where
  connected : Bool
  recording : Bool
  settings1 : ChannelSettings
  settings2 : ChannelSettings
  adc2v : List ℚ
  deriving DecidableEq, Repr

/-- Wire commands of the conditionWave control protocol,
`<verb> [args...] @<channel>`. -/
inductive Command where
  | setAdcRange (rangeIndex : ℕ) (channel : ℤ)
  | setAcqEnabled (v : ℤ) (channel : ℤ)
  | setAcqCont (v : ℤ) (channel : ℤ)
  | setAcqDdt (microseconds : ℤ) (channel : ℤ)
  | setAcqStatusInterval (milliseconds : ℤ) (channel : ℤ)
  | setAcqTrEnabled (v : ℤ) (channel : ℤ)
  | setAcqTrDecimation (factor : ℤ) (channel : ℤ)
  | setAcqTrPreTrig (samples : ℤ) (channel : ℤ)
  | setAcqTrPostDur (samples : ℤ) (channel : ℤ)
  | setFilterCmd (highpassKhz lowpassKhz : Option ℚ) (order : ℤ) (channel : ℤ)
  | setAcqThr (microvolts : ℚ) (channel : ℤ)
  | startAcqCmd
  | stopAcqCmd
  | startPulsingCmd (interval : ℚ) (count : ℤ) (cycles : ℤ) (channel : ℤ)
  | stopPulsingCmd
  | getAeDataCmd
  | getTrDataCmd
  deriving DecidableEq, Repr

/-- Python `int(bool)`. -/
def boolInt (b : Bool) : ℤ := if b then 1 else 0

/-- `_check_channel_number`: `allowed = (0, *CHANNELS)` when `allow_all`
else `CHANNELS`; a channel outside it raises `ValueError`. -/
def cwCheckChannelNumber (channel : ℤ) (allowAll : Bool) : Except PErr Unit :=
  let allowed : List ℤ := if allowAll then [0, 1, 2] else [1, 2]
  if channel ∈ allowed then .ok () else .error .invalidChannel

/-- `_RANGE_INDEX = {0.05: 0, 5.0: 1}`; a missing key raises (turned into
`ValueError` by `set_range`). -/
def cwRangeIndex (rangeVolts : ℚ) : Option ℕ :=
  if rangeVolts = 1/20 then some 0
  else if rangeVolts = 5 then some 1
  else none

/-- The `@_require_connected` decorator: `ValueError` when not connected. -/
def requireConnected (st : CWState) : Except PErr Unit :=
  if st.connected then .ok () else .error .notConnected

/-- `self._channel_settings[channel]` (a missing key is a `KeyError`). -/
def cwSettingsFor (st : CWState) (channel : ℤ) : Option ChannelSettings :=
  if channel = 1 then some st.settings1
  else if channel = 2 then some st.settings2
  else none

/-- Write `range_index` into the mirror of one channel (only channels 1 and
2 exist; other keys are unreachable behind `_check_channel_number`). -/
def cwUpdateRange (st : CWState) (channel : ℤ) (idx : ℕ) : CWState :=
  if channel = 1 then { st with settings1.range_index := idx }
  else if channel = 2 then { st with settings2.range_index := idx }
  else st

/-- Write `decimation` into the mirror of one channel. -/
def cwUpdateDecimation (st : CWState) (channel : ℤ) (factor : ℤ) : CWState :=
  if channel = 1 then { st with settings1.decimation := factor }
  else if channel = 2 then { st with settings2.decimation := factor }
  else st

/-- `ConditionWave.set_range`: require connected, validate channel, map the
range to its index (`ValueError` on a foreign value), send
`set_adc_range <idx> @<channel>`, then mirror the index into the selected
channel, or into channels 1 and 2 for channel 0. -/
def cwSetRange (st : CWState) (channel : ℤ) (rangeVolts : ℚ) :
    List Command × Except PErr CWState :=
  match requireConnected st with
  | .error e => ([], .error e)
  | .ok () =>
    match cwCheckChannelNumber channel true with
    | .error e => ([], .error e)
    | .ok () =>
      match cwRangeIndex rangeVolts with
      | none => ([], .error .invalidRange)
      | some idx =>
        ([.setAdcRange idx channel],
         .ok (if channel > 0 then cwUpdateRange st channel idx
              else cwUpdateRange (cwUpdateRange st 1 idx) 2 idx))

/-- `ConditionWave.set_channel` (not decorated with `_require_connected`;
the inner `_send_command` still refuses to write while disconnected). -/
def cwSetChannel (st : CWState) (channel : ℤ) (enabled : Bool) :
    List Command × Except PErr CWState :=
  match cwCheckChannelNumber channel true with
  | .error e => ([], .error e)
  | .ok () =>
    match requireConnected st with
    | .error e => ([], .error e)
    | .ok () => ([.setAcqEnabled (boolInt enabled) channel], .ok st)

/-- `ConditionWave.set_continuous_mode`. -/
def cwSetContinuousMode (st : CWState) (channel : ℤ) (enabled : Bool) :
    List Command × Except PErr CWState :=
  match requireConnected st with
  | .error e => ([], .error e)
  | .ok () =>
    match cwCheckChannelNumber channel true with
    | .error e => ([], .error e)
    | .ok () => ([.setAcqCont (boolInt enabled) channel], .ok st)

/-- `ConditionWave.set_ddt`.  Note: the source contains no
`_check_channel_number` call here — any channel value is sent as-is. -/
def cwSetDdt (st : CWState) (channel : ℤ) (microseconds : ℤ) :
    List Command × Except PErr CWState :=
  match requireConnected st with
  | .error e => ([], .error e)
  | .ok () => ([.setAcqDdt microseconds channel], .ok st)

/-- `ConditionWave.set_status_interval` (`int(seconds * 1e3)`); the source
contains no `_check_channel_number` call here either. -/
def cwSetStatusInterval (st : CWState) (channel : ℤ) (seconds : ℤ) :
    List Command × Except PErr CWState :=
  match requireConnected st with
  | .error e => ([], .error e)
  | .ok () => ([.setAcqStatusInterval (seconds * 1000) channel], .ok st)

/-- `ConditionWave.set_tr_enabled`. -/
def cwSetTrEnabled (st : CWState) (channel : ℤ) (enabled : Bool) :
    List Command × Except PErr CWState :=
  match requireConnected st with
  | .error e => ([], .error e)
  | .ok () =>
    match cwCheckChannelNumber channel true with
    | .error e => ([], .error e)
    | .ok () => ([.setAcqTrEnabled (boolInt enabled) channel], .ok st)

/-- `ConditionWave.set_tr_decimation`: require connected, validate channel,
require `1 <= factor <= 1000`, send, then mirror the factor into the
selected channel (both channels for channel 0). -/
def cwSetTrDecimation (st : CWState) (channel : ℤ) (factor : ℤ) :
    List Command × Except PErr CWState :=
  match requireConnected st with
  | .error e => ([], .error e)
  | .ok () =>
    match cwCheckChannelNumber channel true with
    | .error e => ([], .error e)
    | .ok () =>
      if ¬(1 ≤ factor ∧ factor ≤ 1000) then ([], .error .invalidDecimation)
      else
        ([.setAcqTrDecimation factor channel],
         .ok (if channel > 0 then cwUpdateDecimation st channel factor
              else cwUpdateDecimation (cwUpdateDecimation st 1 factor) 2 factor))

/-- `ConditionWave.set_tr_pretrigger`. -/
def cwSetTrPretrigger (st : CWState) (channel : ℤ) (samples : ℤ) :
    List Command × Except PErr CWState :=
  match requireConnected st with
  | .error e => ([], .error e)
  | .ok () =>
    match cwCheckChannelNumber channel true with
    | .error e => ([], .error e)
    | .ok () => ([.setAcqTrPreTrig samples channel], .ok st)

/-- `ConditionWave.set_tr_postduration`. -/
def cwSetTrPostduration (st : CWState) (channel : ℤ) (samples : ℤ) :
    List Command × Except PErr CWState :=
  match requireConnected st with
  | .error e => ([], .error e)
  | .ok () =>
    match cwCheckChannelNumber channel true with
    | .error e => ([], .error e)
    | .ok () => ([.setAcqTrPostDur samples channel], .ok st)

/-- `ConditionWave.set_filter` (frequencies sent in kHz, `None` rendered as
the token `none`). -/
def cwSetFilter (st : CWState) (channel : ℤ) (highpass lowpass : Option ℚ) (order : ℤ) :
    List Command × Except PErr CWState :=
  match requireConnected st with
  | .error e => ([], .error e)
  | .ok () =>
    match cwCheckChannelNumber channel true with
    | .error e => ([], .error e)
    | .ok () =>
      ([.setFilterCmd (highpass.map (fun f => f / 1000)) (lowpass.map (fun f => f / 1000))
          order channel], .ok st)

/-- `ConditionWave.set_threshold`; the source contains no
`_check_channel_number` call here. -/
def cwSetThreshold (st : CWState) (channel : ℤ) (microvolts : ℚ) :
    List Command × Except PErr CWState :=
  match requireConnected st with
  | .error e => ([], .error e)
  | .ok () => ([.setAcqThr microvolts channel], .ok st)

/-- `ConditionWave.start_acquisition`: no-op while recording, else send
`start_acq` and mark recording. -/
def cwStartAcquisition (st : CWState) : List Command × Except PErr CWState :=
  match requireConnected st with
  | .error e => ([], .error e)
  | .ok () =>
    if st.recording then ([], .ok st)
    else ([.startAcqCmd], .ok { st with recording := true })

/-- `ConditionWave.stop_acquisition`: no-op while idle, else send `stop_acq`
and mark idle. -/
def cwStopAcquisition (st : CWState) : List Command × Except PErr CWState :=
  match requireConnected st with
  | .error e => ([], .error e)
  | .ok () =>
    if ¬st.recording then ([], .ok st)
    else ([.stopAcqCmd], .ok { st with recording := false })

/-- `ConditionWave.start_pulsing` (no channel validation in the source; an
odd count only warns). -/
def cwStartPulsing (st : CWState) (channel : ℤ) (interval : ℚ) (count cycles : ℤ) :
    List Command × Except PErr CWState :=
  match requireConnected st with
  | .error e => ([], .error e)
  | .ok () => ([.startPulsingCmd interval count cycles channel], .ok st)

/-- `ConditionWave.stop_pulsing`. -/
def cwStopPulsing (st : CWState) : List Command × Except PErr CWState :=
  match requireConnected st with
  | .error e => ([], .error e)
  | .ok () => ([.stopPulsingCmd], .ok st)

/-!
## Transient-data framing: `ConditionWave.get_tr_data`

The response to `get_tr_data` is a sequence of header lines
`Ch=<c> ... NS=<n> TRAI=<i> T=<t>` each immediately followed by `2*NS` raw
bytes of little-endian int16 samples; a bare newline line ends the
sequence.  `readexactly` either returns the exact byte count or raises
`IncompleteReadError`; `assert len(data) == samples` guards the framing.
The loop fuel exceeds the stream length, so the fuel-out branch never runs
for the `cwGetTrData` wrapper below.
-/

/-- A `TRRecord` of `conditionwave.py`. -/
structure TRRecordCW where
  channel : ℤ
  trai : ℤ
  time : ℚ
  samples : ℤ
  data : List ℚ
  raw : Bool
  deriving DecidableEq, Repr

/-- One iteration of the `while True` loop of `ConditionWave.get_tr_data`:
read the header line, stop on a bare newline, otherwise parse `Ch` and
`NS`, look up the channel settings and calibration, read exactly `2*NS`
payload bytes (`IncompleteReadError` on a short stream), decode, check
`assert len(data) == samples`, scale unless raw, and build the record with
`TRAI` and `T`.  Returns `none` for the terminator, or the record and the
unread rest. -/
def cwTrStep (st : CWState) (raw : Bool) (stream : List ℕ) :
    Except PErr (Option TRRecordCW × List ℕ) :=
  let (hlB, rest) := readline stream
  if hlB = [10] then .ok (none, rest)   -- last line is an empty new line
  else
    let kvs := kvFindall (bytesToChars hlB)
    match kvLookup kvs (("Ch").data) with
    | none => .error .keyError
    | some chS =>
      match intParse chS with
      | none => .error .valueError
      | some channel =>
        match kvLookup kvs (("NS").data) with
        | none => .error .keyError
        | some nsS =>
          match intParse nsS with
          | none => .error .valueError
          | some samples =>
            match cwSettingsFor st channel with
            | none => .error .keyError
            | some cs =>
              match st.adc2v.get? cs.range_index with
              | none => .error .indexError
              | some adcToVolts =>
                if samples < 0 then .error .valueError  -- readexactly(n < 0)
                else
                  let nbytes := (2 * samples).toNat
                  if nbytes ≤ rest.length then
                    let adc := decodePairs (rest.take nbytes)
                    let rest2 := rest.drop nbytes
                    if (adc.length : ℤ) = samples then
                      let data := if raw then adc.map (fun (v : ℤ) => (v : ℚ))
                        else adc.map (fun (v : ℤ) => (v : ℚ) * adcToVolts)
                      match kvLookup kvs (("TRAI").data) with
                      | none => .error .keyError
                      | some traiS =>
                        match intParse traiS with
                        | none => .error .valueError
                        | some trai =>
                          match kvLookup kvs (("T").data) with
                          | none => .error .keyError
                          | some tS =>
                            match intParse tS with
                            | none => .error .valueError
                            | some t =>
                              .ok (some { channel := channel, trai := trai,
                                          time := (t : ℚ) / 10000000,
                                          samples := samples, data := data,
                                          raw := raw }, rest2)
                    else .error .assertionError
                  else .error .incompleteRead

/-- The `while True` loop of `ConditionWave.get_tr_data`. -/
def cwGetTrDataLoop (st : CWState) (raw : Bool) : ℕ → List ℕ → Except PErr (List TRRecordCW)
  | 0, _ => .error .outOfFuel
  | fuel + 1, stream =>
    match cwTrStep st raw stream with
    | .error e => .error e
    | .ok (none, _) => .ok []
    | .ok (some rec, rest2) =>
      match cwGetTrDataLoop st raw fuel rest2 with
      | .error e => .error e
      | .ok recs => .ok (rec :: recs)

/-- `ConditionWave.get_tr_data` (`@_require_connected`): send `get_tr_data`
and parse the response stream. -/
def cwGetTrData (st : CWState) (raw : Bool) (stream : List ℕ) :
    List Command × Except PErr (List TRRecordCW) :=
  match requireConnected st with
  | .error e => ([], .error e)
  | .ok () => ([.getTrDataCmd], cwGetTrDataLoop st raw (stream.length + 1) stream)

/-!
## Transient-data framing: `SpotWave.get_tr_data`

The serial variant parses each header with `defaultdict(int, findall)`, so
an absent `TRAI` reads as 0, and a `TRAI <= 0` header ends the loop.
`Serial.read(n)` can return fewer than `n` bytes; `np.frombuffer` raises on
an odd byte count, and an explicit length check raises `RuntimeError` on a
mismatch.  The loop also returns the unconsumed rest of the stream so that
"nothing is read past the terminating header" is expressible.
-/

/-- A `TRRecord` of `spotwave.py` (single channel, 2 MHz clock). -/
structure TRRecordSW where
  trai : ℤ
  time : ℚ
  samples : ℤ
  data : List ℚ
  raw : Bool
  deriving DecidableEq, Repr

/-- `int(matches[key])` over `defaultdict(int, ...)`: a missing key gives
`int()` = 0; a present value that `int` rejects (such as the empty value of
a bare key) raises. -/
def swKvInt (kvs : List (List Char × List Char)) (k : List Char) : Except PErr ℤ :=
  match kvLookup kvs k with
  | none => .ok 0
  | some v =>
    match intParse v with
    | some n => .ok n
    | none => .error .valueError

/-- One iteration of the `while True` loop of `SpotWave.get_tr_data`: read
a header line, parse it with `defaultdict(int, findall)`; a `TRAI <= 0`
(including an absent `TRAI`) ends the loop with nothing further read;
otherwise parse `T` and `NS`, read up to `2*NS` bytes (a serial read may
return fewer), decode (`np.frombuffer` raises on an odd count), scale
unless raw, and raise `RuntimeError` unless `len(data) == samples`. -/
def swTrStep (adcToVolts : ℚ) (raw : Bool) (stream : List ℕ) :
    Except PErr (Option TRRecordSW × List ℕ) :=
  let (hlB, rest) := readline stream
  let kvs := kvFindall (bytesToChars hlB)
  match swKvInt kvs (("TRAI").data) with
  | .error e => .error e
  | .ok trai =>
    if trai ≤ 0 then .ok (none, rest)   -- last line when no TRAI
    else
      match swKvInt kvs (("T").data) with
      | .error e => .error e
      | .ok t =>
        match swKvInt kvs (("NS").data) with
        | .error e => .error e
        | .ok samples =>
          let bytes := rest.take (2 * samples).toNat
          let rest2 := rest.drop (2 * samples).toNat
          if bytes.length % 2 = 1 then .error .valueError  -- np.frombuffer
          else
            let adc := decodePairs bytes
            let data := if raw then adc.map (fun (v : ℤ) => (v : ℚ))
              else adc.map (fun (v : ℤ) => (v : ℚ) * adcToVolts)
            if (data.length : ℤ) ≠ samples then .error .runtimeError
            else
              .ok (some { trai := trai, time := (t : ℚ) / 2000000,
                          samples := samples, data := data, raw := raw }, rest2)

/-- The `while True` loop of `SpotWave.get_tr_data`; returns the records
together with the unread rest of the stream. -/
def swGetTrDataLoop (adcToVolts : ℚ) (raw : Bool) :
    ℕ → List ℕ → Except PErr (List TRRecordSW × List ℕ)
  | 0, _ => .error .outOfFuel
  | fuel + 1, stream =>
    match swTrStep adcToVolts raw stream with
    | .error e => .error e
    | .ok (none, rest) => .ok ([], rest)
    | .ok (some rec, rest2) =>
      match swGetTrDataLoop adcToVolts raw fuel rest2 with
      | .error e => .error e
      | .ok (recs, restF) => .ok (rec :: recs, restF)

/-- `SpotWave.get_tr_data`: send `get_tr_data b` and parse the response. -/
def swGetTrData (adcToVolts : ℚ) (raw : Bool) (stream : List ℕ) :
    Except PErr (List TRRecordSW × List ℕ) :=
  swGetTrDataLoop adcToVolts raw (stream.length + 1) stream

/-!
## ConditionWave per-channel binary stream

`ConditionWave.stream(channel, blocksize)` snapshots the channel settings,
computes `interval = decimation * blocksize / MAX_SAMPLERATE` and returns an
async generator over a dedicated socket.  Each `__anext__` reads exactly
`blocksize * 2` bytes, advances `_time` by `interval` and returns
`(_time - interval, samples)`; on `IncompleteReadError` (end of stream) the
handler is `pass`, so the function returns Python `None` — it never raises
`StopAsyncIteration`.
-/

/-- `MAX_SAMPLERATE` of `ConditionWave`. -/
def maxSampleRate : ℚ := 10000000

/-- `interval = settings.decimation * blocksize / self.MAX_SAMPLERATE`. -/
def streamInterval (decimation : ℤ) (blocksize : ℕ) : ℚ :=
  (decimation : ℚ) * (blocksize : ℚ) / maxSampleRate

/-- Values captured by the stream-generator closure. -/
structure StreamParams where
  port : ℤ
  blocksizeBytes : ℕ
  toVolts : ℚ
  interval : ℚ
  raw : Bool
  deriving DecidableEq, Repr

/-- `ConditionWave.stream` (synchronous `@_require_connected` wrapper):
validate the channel (`allow_all=False`), snapshot the settings, and build
the generator parameters. -/
def cwStream (st : CWState) (channel : ℤ) (blocksize : ℕ) (raw : Bool) :
    Except PErr StreamParams :=
  match requireConnected st with
  | .error e => .error e
  | .ok () =>
    match cwCheckChannelNumber channel false with
    | .error e => .error e
    | .ok () =>
      match cwSettingsFor st channel with
      | none => .error .keyError
      | some cs =>
        match st.adc2v.get? cs.range_index with
        | none => .error .indexError
        | some tv =>
          .ok { port := 5432 + channel, blocksizeBytes := blocksize * 2,
                toVolts := tv, interval := streamInterval cs.decimation blocksize,
                raw := raw }

/-- Mutable state of the stream generator: the unread bytes of the
per-channel socket and the accumulated `_time`. -/
structure StreamState where
  buf : List ℕ
  time : ℚ
  deriving DecidableEq, Repr

/-- What one `__anext__` call produces for the consuming `async for`:
a yielded pair, a yielded Python `None` (the function returned without a
value), or a raised `StopAsyncIteration` ending the iteration. -/
inductive AnextOutcome where
  | item (t : ℚ) (data : List ℚ)
  | noneItem
  | stopAsyncIteration
  deriving DecidableEq, Repr

/-- `StreamGenerator.__anext__`: an exact-length read of `blocksizeBytes`,
time accumulation, int16 decoding and optional scaling; a short stream
raises `IncompleteReadError`, which the source catches with `pass  # eof`,
returning `None`. -/
def cwStreamAnext (p : StreamParams) (st : StreamState) : StreamState × AnextOutcome :=
  if p.blocksizeBytes ≤ st.buf.length then
    let adc := decodePairs (st.buf.take p.blocksizeBytes)
    let newTime := st.time + p.interval
    (⟨st.buf.drop p.blocksizeBytes, newTime⟩,
     .item (newTime - p.interval)
       (if p.raw then adc.map (fun (v : ℤ) => (v : ℚ))
        else adc.map (fun (v : ℤ) => (v : ℚ) * p.toVolts)))
  else (st, .noneItem)

/-- Generator state after `n` calls of `__anext__`. -/
def streamIterState (p : StreamParams) (st0 : StreamState) : ℕ → StreamState
  | 0 => st0
  | n + 1 => (cwStreamAnext p (streamIterState p st0 n)).1

/-- Outcome of the `n`-th (0-based) `__anext__` call. -/
def streamNth (p : StreamParams) (st0 : StreamState) (n : ℕ) : AnextOutcome :=
  (cwStreamAnext p (streamIterState p st0 n)).2

/-!
## Continuous-acquisition loops (`ConditionWave.acquire`, `SpotWave.stream`)

Both have the shape `start_acquisition(); try: while True: <get_ae_data>,
<get_tr_data>, <sleep> finally: stop_acquisition()`.  An execution is
abstracted as the list of operations invoked, cut off by a budget: the
consumer cancels (or an exception is raised) at the await point where the
budget runs out.  A budget of 0 interrupts `start_acquisition` itself,
before the `try` block is entered; any later interrupt runs the `finally`
clause, which invokes `stop_acquisition` once.
-/

/-- Operations invoked by the polling loop. -/
inductive AqAction where
  | startAcq | getAE | getTR | sleep | stopAcq
  deriving DecidableEq, Repr

/-- First `b` operations of the infinite
`while True: get_ae_data; get_tr_data; sleep` loop. -/
def pollLoopTrace : ℕ → List AqAction
  | 0 => []
  | 1 => [.getAE]
  | 2 => [.getAE, .getTR]
  | n + 3 => .getAE :: .getTR :: .sleep :: pollLoopTrace n

/-- Operations invoked by `ConditionWave.acquire` when the consumer cancels
after `b` awaited operations. -/
def cwAcquireTrace : ℕ → List AqAction
  | 0 => []
  | b + 1 => .startAcq :: (pollLoopTrace b ++ [.stopAcq])

/-- Operations invoked by `SpotWave.stream` when the consumer abandons the
generator after `b` operations. -/
def swStreamTrace : ℕ → List AqAction
  | 0 => []
  | b + 1 => .startAcq :: (pollLoopTrace b ++ [.stopAcq])

/-!
## Sample states for concrete evaluations
-/

/-- A connected `ConditionWave` with default settings
(`range_index=0`, `decimation=1`, default `adc_to_volts`). -/
def cwSample : CWState :=
  { connected := true, recording := false,
    settings1 := { range_index := 0, decimation := 1 },
    settings2 := { range_index := 0, decimation := 1 },
    adc2v := [1/640000, 1/6400] }

/-- The same device before `connect`. -/
def cwSampleDisc : CWState := { cwSample with connected := false }

/-- Concrete `get_tr_data` exchange for the multi-channel device: one header
line, four payload bytes (samples `5` and `-5`), and the empty-line
terminator. -/
def cwSampleTrStream : List ℕ :=
  (("Ch=1 T=0 NS=2 TRAI=1\n").data.map Char.toNat) ++ [5, 0, 251, 255] ++ [10]

/-- Concrete `get_tr_data` exchange for the serial device: one record
followed by a `TRAI=0` terminator header. -/
def swSampleTrStream : List ℕ :=
  (("TRAI=1 T=100 NS=2\n").data.map Char.toNat) ++ [5, 0, 251, 255] ++
    (("TRAI=0\n").data.map Char.toNat)

/-- The record decoded from `cwSampleTrStream` in raw mode. -/
def cwSampleRec : TRRecordCW :=
  { channel := 1, trai := 1, time := ((0 : ℤ) : ℚ) / 10000000, samples := 2,
    data := [((5 : ℤ) : ℚ), ((-5 : ℤ) : ℚ)], raw := true }

/-- The record decoded from `swSampleTrStream` in raw mode. -/
def swSampleRec : TRRecordSW :=
  { trai := 1, time := ((100 : ℤ) : ℚ) / 2000000, samples := 2,
    data := [((5 : ℤ) : ℚ), ((-5 : ℤ) : ℚ)], raw := true }

/-- Stream parameters produced by `cwStream cwSample 1 1 false`. -/
def cwSampleParams : StreamParams :=
  { port := 5432 + 1, blocksizeBytes := 1 * 2, toVolts := 1/640000,
    interval := streamInterval 1 1, raw := false }

/-!
# Theorems
-/

/-- Evaluation helper: `khz_or_none` on a parseable token. -/
theorem khzOrNone_eval (s : List Char) (parts : ℤ × ℕ × ℕ × ℕ × ℤ)
    (h : decParseParts s = some parts) :
    khzOrNone (some s) = some (1000 * decVal parts) := by
  simp [khzOrNone, decParse, h]

/-- Evaluation helper: `khz_or_none` on a token `float` rejects. -/
theorem khzOrNone_fail (s : List Char) (h : decParseParts s = none) :
    khzOrNone (some s) = none := by
  simp [khzOrNone, decParse, h]

/-- The polling loop alone never invokes `stop_acquisition`. -/
theorem pollLoopTrace_no_stop (b : ℕ) : AqAction.stopAcq ∉ pollLoopTrace b := by
  induction b using Nat.strong_induction_on with
  | _ b ih =>
    match b with
    | 0 => simp [pollLoopTrace]
    | 1 => simp [pollLoopTrace]
    | 2 => simp [pollLoopTrace]
    | n + 3 =>
      simp only [pollLoopTrace, List.mem_cons]
      push_neg
      exact ⟨by simp, by simp, by simp, ih n (by omega)⟩

/-- C6.  Whenever the continuous acquisition loop of `ConditionWave.acquire`
or `SpotWave.stream` exits — the consumer cancels, the generator is
abandoned, or an exception interrupts an await after at least the initial
`start_acquisition` — the `finally` clause runs and `stop_acquisition` is
invoked exactly once. -/
theorem C6_acquire_cleanup_stop_once (b : ℕ) (hb : 1 ≤ b) :
    (cwAcquireTrace b).count .stopAcq = 1 ∧ (swStreamTrace b).count .stopAcq = 1 := by
  match b, hb with
  | k + 1, _ =>
    have hpoll : (pollLoopTrace k).count AqAction.stopAcq = 0 :=
      List.count_eq_zero.mpr (pollLoopTrace_no_stop k)
    constructor <;>
      simp [cwAcquireTrace, swStreamTrace, List.count_cons, List.count_append, hpoll]

/-- Witness for C6 at a concrete budget. -/
theorem C6_acquire_cleanup_stop_once_witness :
    1 ≤ 7 ∧ (cwAcquireTrace 7).count .stopAcq = 1 ∧ (swStreamTrace 7).count .stopAcq = 1 :=
  ⟨by decide, C6_acquire_cleanup_stop_once 7 (by decide)⟩

/-- C2 (divergence).  At end-of-stream, `StreamGenerator.__anext__` catches
`IncompleteReadError` with `pass  # eof` and therefore returns Python
`None`: the `async for` receives `None` as a further item, and the code
never raises `StopAsyncIteration` under any state, so the lazy sequence
does not end.  The claim that iteration stops cleanly at end-of-stream is
contradicted. -/
theorem C2_stream_eof_yields_none_not_stop :
    cwStreamAnext cwSampleParams ⟨[], 0⟩ = (⟨[], 0⟩, .noneItem)
    ∧ (∀ p st, (cwStreamAnext p st).2 ≠ .stopAsyncIteration) := by
  refine ⟨rfl, fun p st => ?_⟩
  rw [cwStreamAnext]
  split <;> simp

/-- C3 (divergence).  `set_ddt` (like `set_status_interval` and
`set_threshold`) never calls `_check_channel_number`: on a connected device
it sends `set_acq ddt 400 @3` for the invalid channel 3, which
`_check_channel_number` would reject, instead of raising before any bytes
reach the wire.  The validations the claim states for `set_tr_decimation`
and `set_range` do hold, and those errors are raised with nothing
written. -/
theorem C3_set_ddt_skips_channel_validation :
    cwSetDdt cwSample 3 400 = ([Command.setAcqDdt 400 3], .ok cwSample)
    ∧ cwCheckChannelNumber 3 true = .error .invalidChannel
    ∧ cwSetDdt cwSample (-7) 400 = ([Command.setAcqDdt 400 (-7)], .ok cwSample)
    ∧ cwSetTrDecimation cwSample 1 0 = ([], .error .invalidDecimation)
    ∧ cwSetTrDecimation cwSample 1 1001 = ([], .error .invalidDecimation)
    ∧ cwSetTrDecimation cwSample 3 10 = ([], .error .invalidChannel)
    ∧ cwSetRange cwSample 1 (10⁻¹) = ([], .error .invalidRange)
    ∧ cwSetRange cwSample 3 5 = ([], .error .invalidChannel) := by
  have hr : cwRangeIndex (10⁻¹) = none := by
    unfold cwRangeIndex
    rw [if_neg (by norm_num), if_neg (by norm_num)]
  refine ⟨rfl, rfl, rfl, rfl, rfl, rfl, ?_, ?_⟩
  · simp [cwSetRange, requireConnected, cwSample, cwCheckChannelNumber, hr]
  · rfl

/-- C5.  `set_range` / `set_tr_decimation` with channel 0 send exactly one
wire command with selector 0 and fan the mirror update out to both physical
channels; with a single channel they update only that channel's field,
leaving the other channel and the other field untouched (explicit in the
record updates). -/
theorem C5_channel_zero_fanout (st : CWState) (rv : ℚ) (idx : ℕ) (f : ℤ)
    (hconn : st.connected = true) :
    (cwRangeIndex rv = some idx →
      cwSetRange st 0 rv = ([.setAdcRange idx 0],
        .ok { st with settings1 := { st.settings1 with range_index := idx },
                      settings2 := { st.settings2 with range_index := idx } })
      ∧ cwSetRange st 1 rv = ([.setAdcRange idx 1],
        .ok { st with settings1 := { st.settings1 with range_index := idx } })
      ∧ cwSetRange st 2 rv = ([.setAdcRange idx 2],
        .ok { st with settings2 := { st.settings2 with range_index := idx } }))
    ∧ (1 ≤ f → f ≤ 1000 →
      cwSetTrDecimation st 0 f = ([.setAcqTrDecimation f 0],
        .ok { st with settings1 := { st.settings1 with decimation := f },
                      settings2 := { st.settings2 with decimation := f } })
      ∧ cwSetTrDecimation st 1 f = ([.setAcqTrDecimation f 1],
        .ok { st with settings1 := { st.settings1 with decimation := f } })
      ∧ cwSetTrDecimation st 2 f = ([.setAcqTrDecimation f 2],
        .ok { st with settings2 := { st.settings2 with decimation := f } })) := by
  constructor
  · intro hidx
    refine ⟨?_, ?_, ?_⟩ <;>
      simp [cwSetRange, requireConnected, hconn, cwCheckChannelNumber, hidx, cwUpdateRange]
  · intro h1 h2
    have hf : ¬¬(1 ≤ f ∧ f ≤ 1000) := not_not_intro ⟨h1, h2⟩
    refine ⟨?_, ?_, ?_⟩ <;>
      simp [cwSetTrDecimation, requireConnected, hconn, cwCheckChannelNumber, hf,
        cwUpdateDecimation]

/-- Witness for C5 on the sample connected state. -/
theorem C5_channel_zero_fanout_witness :
    cwSample.connected = true ∧ cwRangeIndex (1/20) = some 0 ∧
    cwSetRange cwSample 0 (1/20) = ([.setAdcRange 0 0],
      .ok { cwSample with
              settings1 := { cwSample.settings1 with range_index := 0 },
              settings2 := { cwSample.settings2 with range_index := 0 } }) ∧
    cwSetTrDecimation cwSample 0 10 = ([.setAcqTrDecimation 10 0],
      .ok { cwSample with
              settings1 := { cwSample.settings1 with decimation := 10 },
              settings2 := { cwSample.settings2 with decimation := 10 } }) :=
  have hidx : cwRangeIndex (1/20) = some 0 := by
    unfold cwRangeIndex; exact if_pos rfl
  ⟨rfl, hidx,
    ((C5_channel_zero_fanout cwSample (1/20) 0 10 rfl).1 hidx).1,
    ((C5_channel_zero_fanout cwSample (1/20) 0 10 rfl).2 (by decide) (by decide)).1⟩

/-- C8.  Every embedded command-sending operation of `ConditionWave` fails
while the device is not connected, and writes nothing: the
`@_require_connected` decorator (or, for the undecorated `set_channel`, the
guard inside `_send_command`) raises before any command reaches the
transport. -/
theorem C8_disconnected_rejects_all (st : CWState) (h : st.connected = false) :
    (∀ ch rv, cwSetRange st ch rv = ([], .error .notConnected))
    ∧ (∀ ch en, ∃ e, cwSetChannel st ch en = ([], .error e))
    ∧ (∀ ch en, cwSetContinuousMode st ch en = ([], .error .notConnected))
    ∧ (∀ ch us, cwSetDdt st ch us = ([], .error .notConnected))
    ∧ (∀ ch sec, cwSetStatusInterval st ch sec = ([], .error .notConnected))
    ∧ (∀ ch en, cwSetTrEnabled st ch en = ([], .error .notConnected))
    ∧ (∀ ch f, cwSetTrDecimation st ch f = ([], .error .notConnected))
    ∧ (∀ ch n, cwSetTrPretrigger st ch n = ([], .error .notConnected))
    ∧ (∀ ch n, cwSetTrPostduration st ch n = ([], .error .notConnected))
    ∧ (∀ ch hp lp o, cwSetFilter st ch hp lp o = ([], .error .notConnected))
    ∧ (∀ ch uv, cwSetThreshold st ch uv = ([], .error .notConnected))
    ∧ cwStartAcquisition st = ([], .error .notConnected)
    ∧ cwStopAcquisition st = ([], .error .notConnected)
    ∧ (∀ ch i c cy, cwStartPulsing st ch i c cy = ([], .error .notConnected))
    ∧ cwStopPulsing st = ([], .error .notConnected)
    ∧ (∀ raw stream, cwGetTrData st raw stream = ([], .error .notConnected))
    ∧ (∀ ch bs raw, cwStream st ch bs raw = .error .notConnected) := by
  have hrc : requireConnected st = .error .notConnected := by
    simp [requireConnected, h]
  refine ⟨fun ch rv => ?_, fun ch en => ?_, fun ch en => ?_, fun ch us => ?_,
    fun ch sec => ?_, fun ch en => ?_, fun ch f => ?_, fun ch n => ?_, fun ch n => ?_,
    fun ch hp lp o => ?_, fun ch uv => ?_, ?_, ?_, fun ch i c cy => ?_, ?_,
    fun raw stream => ?_, fun ch bs raw => ?_⟩
  · simp [cwSetRange, hrc]
  · cases hc : cwCheckChannelNumber ch true with
    | error e => exact ⟨e, by simp [cwSetChannel, hc]⟩
    | ok u => exact ⟨.notConnected, by cases u; simp [cwSetChannel, hc, hrc]⟩
  · simp [cwSetContinuousMode, hrc]
  · simp [cwSetDdt, hrc]
  · simp [cwSetStatusInterval, hrc]
  · simp [cwSetTrEnabled, hrc]
  · simp [cwSetTrDecimation, hrc]
  · simp [cwSetTrPretrigger, hrc]
  · simp [cwSetTrPostduration, hrc]
  · simp [cwSetFilter, hrc]
  · simp [cwSetThreshold, hrc]
  · simp [cwStartAcquisition, hrc]
  · simp [cwStopAcquisition, hrc]
  · simp [cwStartPulsing, hrc]
  · simp [cwStopPulsing, hrc]
  · simp [cwGetTrData, hrc]
  · simp [cwStream, hrc]

/-- Witness for C8 on the sample disconnected state. -/
theorem C8_disconnected_rejects_all_witness :
    cwSampleDisc.connected = false
    ∧ cwSetRange cwSampleDisc 1 5 = ([], .error .notConnected)
    ∧ (∃ e, cwSetChannel cwSampleDisc 1 true = ([], .error e)) :=
  have h := C8_disconnected_rejects_all cwSampleDisc rfl
  ⟨rfl, h.1 1 5, h.2.1 1 true⟩

/-- Closed form of the generator state after `n` successful reads. -/
theorem streamIterState_closed (p : StreamParams) (buf : List ℕ) (t0 : ℚ) (n : ℕ)
    (h : n * p.blocksizeBytes ≤ buf.length) :
    streamIterState p ⟨buf, t0⟩ n =
      ⟨buf.drop (n * p.blocksizeBytes), t0 + n * p.interval⟩ := by
  induction n with
  | zero => simp [streamIterState]
  | succ n ih =>
    have hn : n * p.blocksizeBytes ≤ buf.length :=
      le_trans (Nat.mul_le_mul_right _ (Nat.le_succ n)) h
    have hsucc : (n + 1) * p.blocksizeBytes = n * p.blocksizeBytes + p.blocksizeBytes :=
      Nat.succ_mul n p.blocksizeBytes
    have hd : (buf.drop (n * p.blocksizeBytes)).length = buf.length - n * p.blocksizeBytes := by
      simp
    have hb : p.blocksizeBytes ≤ (buf.drop (n * p.blocksizeBytes)).length := by omega
    rw [streamIterState, ih hn]
    simp only [cwStreamAnext, if_pos hb]
    rw [List.drop_drop, ← hsucc]
    congr 1
    push_cast
    ring

/-- Closed form of the `n`-th yielded pair while data lasts: the generator
yields `(_time - interval)` right after `_time += interval`. -/
theorem streamNth_closed (p : StreamParams) (buf : List ℕ) (t0 : ℚ) (n : ℕ)
    (h : (n + 1) * p.blocksizeBytes ≤ buf.length) :
    streamNth p ⟨buf, t0⟩ n = .item (t0 + n * p.interval)
      ((fun adc => if p.raw then adc.map (fun (v : ℤ) => (v : ℚ))
          else adc.map (fun (v : ℤ) => (v : ℚ) * p.toVolts))
        (decodePairs ((buf.drop (n * p.blocksizeBytes)).take p.blocksizeBytes))) := by
  have hn : n * p.blocksizeBytes ≤ buf.length :=
    le_trans (Nat.mul_le_mul_right _ (Nat.le_succ n)) h
  have hsucc : (n + 1) * p.blocksizeBytes = n * p.blocksizeBytes + p.blocksizeBytes :=
    Nat.succ_mul n p.blocksizeBytes
  have hd : (buf.drop (n * p.blocksizeBytes)).length = buf.length - n * p.blocksizeBytes := by
    simp
  have hb : p.blocksizeBytes ≤ (buf.drop (n * p.blocksizeBytes)).length := by omega
  rw [streamNth, streamIterState_closed p buf t0 n hn]
  simp only [cwStreamAnext, if_pos hb]
  congr 1
  ring

/-- C7.  The per-channel binary stream yields relative timestamps starting
at exactly 0 and advancing by exactly
`decimation * blocksize / max_sample_rate` per block, with the decimation
snapshot taken from the channel settings when `stream` was called; at
`decimation=10, blocksize=1000, max_sample_rate=10_000_000` the step is
exactly `0.001` seconds.  (Python `float` arithmetic is modelled
exactly over `ℚ`.) -/
theorem C7_stream_timing (st : CWState) (ch : ℤ) (bs : ℕ) (raw : Bool)
    (p : StreamParams) (hp : cwStream st ch bs raw = .ok p)
    (buf : List ℕ) (n : ℕ)
    (hlen : (n + 2) * p.blocksizeBytes ≤ buf.length) :
    (∃ d, streamNth p ⟨buf, 0⟩ 0 = .item 0 d)
    ∧ (∃ t d t' d', streamNth p ⟨buf, 0⟩ n = .item t d
        ∧ streamNth p ⟨buf, 0⟩ (n + 1) = .item t' d'
        ∧ t' - t = p.interval ∧ t = n * p.interval)
    ∧ (ch = 1 → p.interval = streamInterval st.settings1.decimation bs)
    ∧ streamInterval 10 1000 = 1/1000 := by
  have h1 : (0 + 1) * p.blocksizeBytes ≤ buf.length := by
    calc (0 + 1) * p.blocksizeBytes ≤ (n + 2) * p.blocksizeBytes :=
          Nat.mul_le_mul_right _ (by omega)
    _ ≤ buf.length := hlen
  have hn1 : (n + 1) * p.blocksizeBytes ≤ buf.length := by
    calc (n + 1) * p.blocksizeBytes ≤ (n + 2) * p.blocksizeBytes :=
          Nat.mul_le_mul_right _ (by omega)
    _ ≤ buf.length := hlen
  have hn2 : (n + 1 + 1) * p.blocksizeBytes ≤ buf.length := by
    calc (n + 1 + 1) * p.blocksizeBytes = (n + 2) * p.blocksizeBytes := by ring_nf
    _ ≤ buf.length := hlen
  have h0 := streamNth_closed p buf 0 0 h1
  norm_num at h0
  have hA := streamNth_closed p buf 0 n hn1
  have hB := streamNth_closed p buf 0 (n + 1) hn2
  refine ⟨⟨_, h0⟩, ⟨_, _, _, _, hA, hB, by push_cast; ring, by ring⟩, ?_, ?_⟩
  · intro hch
    subst hch
    rw [cwStream] at hp
    rcases hconn : requireConnected st with e | u
    · rw [hconn] at hp; exact absurd hp (by simp)
    · rw [hconn] at hp
      cases u
      dsimp only at hp
      rw [show cwCheckChannelNumber 1 false = Except.ok () from rfl] at hp
      dsimp only at hp
      rw [show cwSettingsFor st 1 = some st.settings1 from rfl] at hp
      dsimp only at hp
      rcases hg : st.adc2v.get? st.settings1.range_index with _ | tv
      · rw [hg] at hp; exact absurd hp (by simp)
      · rw [hg] at hp
        cases hp
        rfl
  · rw [streamInterval, maxSampleRate]
    norm_num

/-- Witness for C7: sample device, channel 1, blocksize 1, a 4-byte
buffer. -/
theorem C7_stream_timing_witness :
    cwStream cwSample 1 1 false = .ok cwSampleParams
    ∧ (0 + 2) * cwSampleParams.blocksizeBytes ≤ (List.replicate 4 0).length
    ∧ ((∃ d, streamNth cwSampleParams ⟨List.replicate 4 0, 0⟩ 0 = .item 0 d)
      ∧ (∃ t d t' d', streamNth cwSampleParams ⟨List.replicate 4 0, 0⟩ 0 = .item t d
          ∧ streamNth cwSampleParams ⟨List.replicate 4 0, 0⟩ (0 + 1) = .item t' d'
          ∧ t' - t = cwSampleParams.interval ∧ t = (0 : ℕ) * cwSampleParams.interval)
      ∧ ((1 : ℤ) = 1 → cwSampleParams.interval = streamInterval cwSample.settings1.decimation 1)
      ∧ streamInterval 10 1000 = 1/1000) :=
  ⟨rfl, by decide,
    C7_stream_timing cwSample 1 1 false cwSampleParams rfl (List.replicate 4 0) 0 (by decide)⟩

/-- A record produced by one `ConditionWave.get_tr_data` iteration passed
the `assert len(data) == samples` framing check. -/
theorem cwTrStep_ok_some (st : CWState) (raw : Bool) (s : List ℕ)
    (rec : TRRecordCW) (r2 : List ℕ)
    (h : cwTrStep st raw s = .ok (some rec, r2)) :
    (rec.data.length : ℤ) = rec.samples := by
  rw [cwTrStep] at h
  rcases hrl : readline s with ⟨hl, rst⟩
  rw [hrl] at h
  dsimp only at h
  repeat' split at h
  all_goals cases h
  all_goals dsimp only
  all_goals simp_all only [List.length_map]

/-- A record produced by one `SpotWave.get_tr_data` iteration has a
positive `trai` and passed the length check. -/
theorem swTrStep_ok_some (a2v : ℚ) (raw : Bool) (s : List ℕ)
    (rec : TRRecordSW) (r2 : List ℕ)
    (h : swTrStep a2v raw s = .ok (some rec, r2)) :
    1 ≤ rec.trai ∧ (rec.data.length : ℤ) = rec.samples := by
  rw [swTrStep] at h
  rcases hrl : readline s with ⟨hl, rst⟩
  rw [hrl] at h
  dsimp only at h
  repeat' split at h
  all_goals cases h
  all_goals refine ⟨?_, ?_⟩
  all_goals dsimp only
  all_goals simp_all only [List.length_map]
  all_goals omega

/-- Every record returned by the `ConditionWave.get_tr_data` loop satisfies
the framing invariant. -/
theorem cwLoop_length (st : CWState) (raw : Bool) :
    ∀ fuel stream recs, cwGetTrDataLoop st raw fuel stream = .ok recs →
      ∀ r ∈ recs, (r.data.length : ℤ) = r.samples := by
  intro fuel
  induction fuel with
  | zero => intro s recs h; simp [cwGetTrDataLoop] at h
  | succ fuel ih =>
    intro s recs h
    rw [cwGetTrDataLoop] at h
    rcases hs : cwTrStep st raw s with e | ⟨orec, r2⟩
    · rw [hs] at h; exact absurd h (by simp)
    · rcases orec with _ | rec
      · rw [hs] at h
        cases h
        intro r hr
        simp at hr
      · rw [hs] at h
        dsimp only at h
        rcases hrec : cwGetTrDataLoop st raw fuel r2 with e | recs' <;> rw [hrec] at h
        · exact absurd h (by simp)
        · cases h
          intro r hr
          rcases List.mem_cons.mp hr with hh | hr'
          · subst hh
            exact cwTrStep_ok_some st raw s r r2 hs
          · exact ih r2 recs' hrec r hr'

/-- Every record returned by the `SpotWave.get_tr_data` loop satisfies both
invariants. -/
theorem swLoop_invariants (a2v : ℚ) (raw : Bool) :
    ∀ fuel stream recs rest, swGetTrDataLoop a2v raw fuel stream = .ok (recs, rest) →
      ∀ r ∈ recs, 1 ≤ r.trai ∧ (r.data.length : ℤ) = r.samples := by
  intro fuel
  induction fuel with
  | zero => intro s recs rest h; simp [swGetTrDataLoop] at h
  | succ fuel ih =>
    intro s recs rest h
    rw [swGetTrDataLoop] at h
    rcases hs : swTrStep a2v raw s with e | ⟨orec, r2⟩
    · rw [hs] at h; exact absurd h (by simp)
    · rcases orec with _ | rec
      · rw [hs] at h
        cases h
        intro r hr
        simp at hr
      · rw [hs] at h
        dsimp only at h
        rcases hrec : swGetTrDataLoop a2v raw fuel r2 with e | ⟨recs', restF⟩ <;>
          rw [hrec] at h
        · exact absurd h (by simp)
        · cases h
          intro r hr
          rcases List.mem_cons.mp hr with hh | hr'
          · subst hh
            exact swTrStep_ok_some a2v raw s r r2 hs
          · exact ih r2 recs' _ hrec r hr'

/-- C1.  On both devices, every transient record returned by `get_tr_data`
carries exactly `NS` decoded samples: `len(record.data) == record.samples`.
A byte stream that cannot supply the declared payload makes the call raise
(`IncompleteReadError` / failed assert on the network device, `ValueError`
or `RuntimeError` on the serial device) — an `ok` result with a truncated
or padded record is impossible. -/
theorem C1_tr_data_length_matches :
    (∀ st raw stream cmds recs, cwGetTrData st raw stream = (cmds, .ok recs) →
      ∀ r ∈ recs, (r.data.length : ℤ) = r.samples)
    ∧ (∀ a2v raw stream recs rest, swGetTrData a2v raw stream = .ok (recs, rest) →
      ∀ r ∈ recs, (r.data.length : ℤ) = r.samples) := by
  constructor
  · intro st raw stream cmds recs h
    rw [cwGetTrData] at h
    rcases hc : requireConnected st with e | u <;> rw [hc] at h
    · exact absurd (congrArg Prod.snd h) (by simp)
    · cases u
      dsimp only at h
      exact cwLoop_length st raw (stream.length + 1) stream recs (congrArg Prod.snd h)
  · intro a2v raw stream recs rest h
    rw [swGetTrData] at h
    exact fun r hr => (swLoop_invariants a2v raw (stream.length + 1) stream recs rest h r hr).2

/-- Witness for C1: a concrete exchange on each device (raw mode). -/
theorem C1_tr_data_length_matches_witness :
    cwGetTrData cwSample true cwSampleTrStream = ([Command.getTrDataCmd], .ok [cwSampleRec])
    ∧ swGetTrData 1 true swSampleTrStream = .ok ([swSampleRec], [])
    ∧ (cwSampleRec.data.length : ℤ) = cwSampleRec.samples := by
  have hcw : cwGetTrData cwSample true cwSampleTrStream
      = ([Command.getTrDataCmd], .ok [cwSampleRec]) := by
    with_unfolding_all rfl
  have hsw : swGetTrData 1 true swSampleTrStream = .ok ([swSampleRec], []) := by
    with_unfolding_all rfl
  exact ⟨hcw, hsw,
    C1_tr_data_length_matches.1 cwSample true cwSampleTrStream [Command.getTrDataCmd]
      [cwSampleRec] hcw cwSampleRec (by simp)⟩

/-- C10.  Every `TRRecord` yielded by `SpotWave.get_tr_data` has a positive
`trai`: a header whose `TRAI` is zero, negative or absent terminates the
loop at once — nothing past that header line is read and no record with a
non-positive transient-record index is ever produced. -/
theorem C10_spotwave_trai_positive :
    (∀ a2v raw stream recs rest, swGetTrData a2v raw stream = .ok (recs, rest) →
      ∀ r ∈ recs, 1 ≤ r.trai)
    ∧ (∀ a2v raw (fuel : ℕ) stream trai,
        swKvInt (kvFindall (bytesToChars (readline stream).1)) (("TRAI").data) = .ok trai →
        trai ≤ 0 →
        swGetTrDataLoop a2v raw (fuel + 1) stream = .ok ([], (readline stream).2)) := by
  constructor
  · intro a2v raw stream recs rest h
    rw [swGetTrData] at h
    exact fun r hr => (swLoop_invariants a2v raw _ _ _ _ h r hr).1
  · intro a2v raw fuel stream trai htr hle
    have hstep : swTrStep a2v raw stream = .ok (none, (readline stream).2) := by
      rw [swTrStep]
      rcases hrl : readline stream with ⟨hl, rst⟩
      rw [hrl] at htr
      dsimp only at htr ⊢
      rw [htr]
      dsimp only
      rw [if_pos hle]
    rw [swGetTrDataLoop, hstep]

/-- Witness for C10: a concrete serial exchange whose second header has
`TRAI=0`. -/
theorem C10_spotwave_trai_positive_witness :
    swGetTrData 1 true swSampleTrStream = .ok ([swSampleRec], [])
    ∧ 1 ≤ swSampleRec.trai := by
  have hsw : swGetTrData 1 true swSampleTrStream = .ok ([swSampleRec], []) := by
    with_unfolding_all rfl
  exact ⟨hsw,
    C10_spotwave_trai_positive.1 1 true swSampleTrStream [swSampleRec] [] hsw
      swSampleRec (by simp)⟩

/-- C9.  `as_int`/`as_float` parse the leading space-delimited token of the
stripped value (trailing unit suffixes ignored) and return the caller's
default exactly when that token is empty, independently of the default
otherwise; with the key-value tokenizer, `b"temp=27 dummy T = 3044759\n"`
yields 3044759 at key `T` and 27 at key `temp`, while the bare key `dummy`
maps to the empty value and affects neither. -/
theorem C9_numeric_token_coercion :
    (∀ s d, (pyStrip s).takeWhile (fun c => c ≠ ' ') = [] → asInt s d = .ok d)
    ∧ (∀ s d d', (pyStrip s).takeWhile (fun c => c ≠ ' ') ≠ [] → asInt s d = asInt s d')
    ∧ (∀ s d, (pyStrip s).takeWhile (fun c => c ≠ ' ') = [] → asFloat s d = .ok d)
    ∧ (∀ s d d', (pyStrip s).takeWhile (fun c => c ≠ ' ') ≠ [] → asFloat s d = asFloat s d')
    ∧ kvLookup (kvFindall (("temp=27 dummy T = 3044759\n").data)) (("T").data)
        = some (("3044759").data)
    ∧ asInt (("3044759").data) 0 = .ok 3044759
    ∧ kvLookup (kvFindall (("temp=27 dummy T = 3044759\n").data)) (("temp").data)
        = some (("27").data)
    ∧ asInt (("27").data) 0 = .ok 27
    ∧ kvLookup (kvFindall (("temp=27 dummy T = 3044759\n").data)) (("dummy").data) = some []
    ∧ asInt (("27 degC").data) 0 = .ok 27 := by
  refine ⟨?_, ?_, ?_, ?_, by decide, by decide, by decide, by decide, by decide, by decide⟩
  · intro s d h
    simp only [asInt]
    rw [if_pos h]
  · intro s d d' h
    simp only [asInt]
    rw [if_neg h, if_neg h]
  · intro s d h
    simp only [asFloat]
    rw [if_pos h]
  · intro s d d' h
    simp only [asFloat]
    rw [if_neg h, if_neg h]

/-- Witness for C9's universally quantified parts. -/
theorem C9_numeric_token_coercion_witness :
    ((pyStrip (("   ").data)).takeWhile (fun c => c ≠ ' ') = []
      ∧ asInt (("   ").data) 42 = .ok 42)
    ∧ ((pyStrip (("5 kHz").data)).takeWhile (fun c => c ≠ ' ') ≠ []
      ∧ asInt (("5 kHz").data) 0 = asInt (("5 kHz").data) 99) :=
  ⟨⟨by decide, C9_numeric_token_coercion.1 (("   ").data) 42 (by decide)⟩,
   ⟨by decide, C9_numeric_token_coercion.2.1 (("5 kHz").data) 0 99 (by decide)⟩⟩

/-!
## C4: the filter-setup round trip

The engine lemmas below characterise the greedy backtracking matcher on the
token shapes produced by encoding a filter triple, leading to the amended
round-trip theorem (the order group captures a single digit, so the round
trip holds exactly for one-digit orders; `order 12` is re-parsed as 1).
-/

theorem ore_none_left (b : Option Caps) : ore none b = b := rfl

theorem ore_some_left (x : Caps) (b : Option Caps) : ore (some x) b = some x := rfl

theorem ore_none_right (a : Option Caps) : ore a none = a := by
  cases a <;> rfl

theorem ore_isSome_left (a b : Option Caps) (h : a.isSome = true) : ore a b = a := by
  cases a
  · simp at h
  · rfl

/-- `litPfxCI` only consumes input. -/
theorem litPfxCI_length (cs : List Char) :
    ∀ s s1, litPfxCI cs s = some s1 → s1.length ≤ s.length := by
  induction cs with
  | nil => intro s s1 h; cases h; exact le_rfl
  | cons c cs ih =>
    intro s s1 h
    cases s with
    | nil => cases h
    | cons x xs =>
      rw [litPfxCI] at h
      by_cases hx : x.toLower = c
      · rw [if_pos hx] at h
        exact le_trans (ih xs s1 h) (Nat.le_succ _)
      · rw [if_neg hx] at h
        cases h

/-- Fuel irrelevance: any two sufficient fuels agree. -/
theorem rmatchF_mono (f : ℕ) : ∀ (g : ℕ) (pat : List RElem) (s : List Char),
    s.length + pat.length < f → s.length + pat.length < g →
    rmatchF f pat s = rmatchF g pat s := by
  induction f with
  | zero => intro g pat s hf; omega
  | succ f ih =>
    intro g pat s hf hg
    match g, hg with
    | g + 1, hg =>
      match pat, s with
      | [], s => rfl
      | .cls p :: ps, [] => rfl
      | .cls p :: ps, c :: s =>
        simp only [List.length_cons] at hf hg
        show (if p c then rmatchF f ps s else none)
          = (if p c then rmatchF g ps s else none)
        by_cases hc : p c = true
        · rw [if_pos hc, if_pos hc, ih g ps s (by omega) (by omega)]
        · rw [if_neg hc, if_neg hc]
      | .star p :: ps, [] =>
        simp only [List.length_cons] at hf hg
        show rmatchF f ps [] = rmatchF g ps []
        exact ih g ps [] (by simp; omega) (by simp; omega)
      | .star p :: ps, c :: s =>
        simp only [List.length_cons] at hf hg
        show (if p c then ore (rmatchF f (.star p :: ps) s) (rmatchF f ps (c :: s))
                else rmatchF f ps (c :: s))
          = (if p c then ore (rmatchF g (.star p :: ps) s) (rmatchF g ps (c :: s))
                else rmatchF g ps (c :: s))
        have e1 : rmatchF f (.star p :: ps) s = rmatchF g (.star p :: ps) s :=
          ih g _ s (by simp; omega) (by simp; omega)
        have e2 : rmatchF f ps (c :: s) = rmatchF g ps (c :: s) :=
          ih g ps (c :: s) (by simp; omega) (by simp; omega)
        by_cases hc : p c = true
        · rw [if_pos hc, if_pos hc, e1, e2]
        · rw [if_neg hc, if_neg hc, e2]
      | .lit ch :: ps, [] => rfl
      | .lit ch :: ps, c :: s =>
        simp only [List.length_cons] at hf hg
        show (if c = ch then rmatchF f ps s else none)
          = (if c = ch then rmatchF g ps s else none)
        by_cases hc : c = ch
        · rw [if_pos hc, if_pos hc, ih g ps s (by omega) (by omega)]
        · rw [if_neg hc, if_neg hc]
      | .litCI ch :: ps, [] => rfl
      | .litCI ch :: ps, c :: s =>
        simp only [List.length_cons] at hf hg
        show (if c.toLower = ch then rmatchF f ps s else none)
          = (if c.toLower = ch then rmatchF g ps s else none)
        by_cases hc : c.toLower = ch
        · rw [if_pos hc, if_pos hc, ih g ps s (by omega) (by omega)]
        · rw [if_neg hc, if_neg hc]
      | .optStr cs :: ps, s =>
        simp only [List.length_cons] at hf hg
        show (match litPfxCI cs s with
              | some s1 => ore (rmatchF f ps s1) (rmatchF f ps s)
              | none => rmatchF f ps s)
          = (match litPfxCI cs s with
              | some s1 => ore (rmatchF g ps s1) (rmatchF g ps s)
              | none => rmatchF g ps s)
        cases hpf : litPfxCI cs s with
        | none => exact ih g ps s (by omega) (by omega)
        | some s1 =>
          have hs1 := litPfxCI_length cs s s1 hpf
          dsimp only
          rw [ih g ps s1 (by omega) (by omega), ih g ps s (by omega) (by omega)]
      | .gcls t p :: ps, [] => rfl
      | .gcls t p :: ps, c :: s =>
        simp only [List.length_cons] at hf hg
        show (if p c then (rmatchF f ps s).map (setCap t [c]) else none)
          = (if p c then (rmatchF g ps s).map (setCap t [c]) else none)
        by_cases hc : p c = true
        · rw [if_pos hc, if_pos hc, ih g ps s (by omega) (by omega)]
        · rw [if_neg hc, if_neg hc]
      | .gplus t p :: ps, [] => rfl
      | .gplus t p :: ps, c :: s =>
        simp only [List.length_cons] at hf hg
        show (if p c then rmatchF f (.gext t p [c] :: ps) s else none)
          = (if p c then rmatchF g (.gext t p [c] :: ps) s else none)
        by_cases hc : p c = true
        · rw [if_pos hc, if_pos hc, ih g _ s (by simp; omega) (by simp; omega)]
        · rw [if_neg hc, if_neg hc]
      | .gext t p acc :: ps, [] =>
        simp only [List.length_cons] at hf hg
        show (rmatchF f ps []).map (setCap t acc) = (rmatchF g ps []).map (setCap t acc)
        rw [ih g ps [] (by simp; omega) (by simp; omega)]
      | .gext t p acc :: ps, c :: s =>
        simp only [List.length_cons] at hf hg
        show (if p c then ore (rmatchF f (.gext t p (acc ++ [c]) :: ps) s)
                ((rmatchF f ps (c :: s)).map (setCap t acc))
              else (rmatchF f ps (c :: s)).map (setCap t acc))
          = (if p c then ore (rmatchF g (.gext t p (acc ++ [c]) :: ps) s)
                ((rmatchF g ps (c :: s)).map (setCap t acc))
              else (rmatchF g ps (c :: s)).map (setCap t acc))
        have e1 : rmatchF f (.gext t p (acc ++ [c]) :: ps) s
            = rmatchF g (.gext t p (acc ++ [c]) :: ps) s :=
          ih g _ s (by simp; omega) (by simp; omega)
        have e2 : rmatchF f ps (c :: s) = rmatchF g ps (c :: s) :=
          ih g ps (c :: s) (by simp; omega) (by simp; omega)
        by_cases hc : p c = true
        · rw [if_pos hc, if_pos hc, e1, e2]
        · rw [if_neg hc, if_neg hc, e2]

/-- Any sufficient fuel computes `rmatch`. -/
theorem rmF_to_rmatch (f : ℕ) (pat : List RElem) (s : List Char)
    (h : s.length + pat.length < f) : rmatchF f pat s = rmatch pat s :=
  rmatchF_mono f (s.length + pat.length + 1) pat s h (by omega)

/-- Unfolding: empty pattern matches, capturing nothing. -/
theorem rmatch_nil_pat (s : List Char) : rmatch [] s = some {} := rfl

/-- Unfolding: a class against the empty input fails. -/
theorem rmatch_cls_nil (p : Char → Bool) (ps : List RElem) :
    rmatch (.cls p :: ps) [] = none := rfl

/-- Unfolding: a class consumes one matching character. -/
theorem rmatch_cls_cons (p : Char → Bool) (ps : List RElem) (c : Char) (s : List Char) :
    rmatch (.cls p :: ps) (c :: s) = if p c then rmatch ps s else none := by
  show (if p c then rmatchF ((c :: s).length + (RElem.cls p :: ps).length) ps s else none)
    = if p c then rmatch ps s else none
  by_cases hc : p c = true
  · rw [if_pos hc, if_pos hc]
    exact rmF_to_rmatch _ ps s (by simp only [List.length_cons, List.length_nil]; omega)
  · rw [if_neg hc, if_neg hc]

/-- Unfolding: a star on empty input matches nothing. -/
theorem rmatch_star_nil (p : Char → Bool) (ps : List RElem) :
    rmatch (.star p :: ps) [] = rmatch ps [] := by
  show rmatchF ([].length + (RElem.star p :: ps).length) ps []
    = rmatch ps []
  exact rmF_to_rmatch _ ps [] (by simp only [List.length_cons, List.length_nil]; omega)

/-- Unfolding: a greedy star first tries to consume, then falls back. -/
theorem rmatch_star_cons (p : Char → Bool) (ps : List RElem) (c : Char) (s : List Char) :
    rmatch (.star p :: ps) (c :: s)
      = if p c then ore (rmatch (.star p :: ps) s) (rmatch ps (c :: s))
        else rmatch ps (c :: s) := by
  show (if p c then ore (rmatchF ((c :: s).length + (RElem.star p :: ps).length)
          (.star p :: ps) s)
          (rmatchF ((c :: s).length + (RElem.star p :: ps).length) ps (c :: s))
        else rmatchF ((c :: s).length + (RElem.star p :: ps).length) ps (c :: s))
    = _
  have e1 := rmF_to_rmatch ((c :: s).length + (RElem.star p :: ps).length)
    (.star p :: ps) s (by simp only [List.length_cons, List.length_nil]; omega)
  have e2 := rmF_to_rmatch ((c :: s).length + (RElem.star p :: ps).length)
    ps (c :: s) (by simp only [List.length_cons, List.length_nil]; omega)
  rw [e1, e2]

/-- Unfolding: an exact literal against the empty input fails. -/
theorem rmatch_lit_nil (ch : Char) (ps : List RElem) :
    rmatch (.lit ch :: ps) [] = none := rfl

/-- Unfolding: an exact literal consumes its character. -/
theorem rmatch_lit_cons (ch : Char) (ps : List RElem) (c : Char) (s : List Char) :
    rmatch (.lit ch :: ps) (c :: s) = if c = ch then rmatch ps s else none := by
  show (if c = ch then rmatchF ((c :: s).length + (RElem.lit ch :: ps).length) ps s else none)
    = if c = ch then rmatch ps s else none
  by_cases hc : c = ch
  · rw [if_pos hc, if_pos hc]
    exact rmF_to_rmatch _ ps s (by simp only [List.length_cons, List.length_nil]; omega)
  · rw [if_neg hc, if_neg hc]

/-- Unfolding: a greedy plus-group opens on a matching character. -/
theorem rmatch_gplus_cons (t : GTag) (p : Char → Bool) (ps : List RElem)
    (c : Char) (s : List Char) :
    rmatch (.gplus t p :: ps) (c :: s)
      = if p c then rmatch (.gext t p [c] :: ps) s else none := by
  show (if p c then rmatchF ((c :: s).length + (RElem.gplus t p :: ps).length)
        (.gext t p [c] :: ps) s else none)
    = if p c then rmatch (.gext t p [c] :: ps) s else none
  by_cases hc : p c = true
  · rw [if_pos hc, if_pos hc]
    exact rmF_to_rmatch _ _ s (by simp only [List.length_cons, List.length_nil]; omega)
  · rw [if_neg hc, if_neg hc]

/-- Unfolding: an open group at end of input closes with its run. -/
theorem rmatch_gext_nil (t : GTag) (p : Char → Bool) (acc : List Char) (ps : List RElem) :
    rmatch (.gext t p acc :: ps) [] = (rmatch ps []).map (setCap t acc) := by
  show (rmatchF ([].length + (RElem.gext t p acc :: ps).length) ps []).map (setCap t acc)
    = (rmatch ps []).map (setCap t acc)
  rw [rmF_to_rmatch _ ps [] (by simp only [List.length_cons, List.length_nil]; omega)]

/-- Unfolding: an open group greedily extends, else closes here. -/
theorem rmatch_gext_cons (t : GTag) (p : Char → Bool) (acc : List Char) (ps : List RElem)
    (c : Char) (s : List Char) :
    rmatch (.gext t p acc :: ps) (c :: s)
      = if p c then ore (rmatch (.gext t p (acc ++ [c]) :: ps) s)
          ((rmatch ps (c :: s)).map (setCap t acc))
        else (rmatch ps (c :: s)).map (setCap t acc) := by
  show (if p c then ore
          (rmatchF ((c :: s).length + (RElem.gext t p acc :: ps).length)
            (.gext t p (acc ++ [c]) :: ps) s)
          ((rmatchF ((c :: s).length + (RElem.gext t p acc :: ps).length)
            ps (c :: s)).map (setCap t acc))
        else (rmatchF ((c :: s).length + (RElem.gext t p acc :: ps).length)
            ps (c :: s)).map (setCap t acc))
    = _
  have e1 := rmF_to_rmatch ((c :: s).length + (RElem.gext t p acc :: ps).length)
    (.gext t p (acc ++ [c]) :: ps) s (by simp only [List.length_cons, List.length_nil]; omega)
  have e2 := rmF_to_rmatch ((c :: s).length + (RElem.gext t p acc :: ps).length)
    ps (c :: s) (by simp only [List.length_cons, List.length_nil]; omega)
  rw [e1, e2]

/-- An open group over a `p`-run `u` (with `v` starting outside `p`)
enumerates its closing points greedily. -/
theorem gext_eq_closeSeq (t : GTag) (p : Char → Bool) (K : List RElem)
    (u : List Char) (hu : ∀ c ∈ u, p c = true)
    (v : List Char) (hv : ∀ c s', v = c :: s' → p c = false) :
    ∀ acc, rmatch (.gext t p acc :: K) (u ++ v) = closeSeq t K acc u v := by
  induction u with
  | nil =>
    intro acc
    cases v with
    | nil => rw [List.nil_append, rmatch_gext_nil, closeSeq]
    | cons c s' =>
      rw [List.nil_append, rmatch_gext_cons, if_neg (by rw [hv c s' rfl]; simp), closeSeq]
  | cons c u ih =>
    intro acc
    have hc : p c = true := hu c (by simp)
    rw [List.cons_append, rmatch_gext_cons, if_pos hc,
      ih (fun x hx => hu x (by simp [hx])), closeSeq]
    rw [List.cons_append]

/-- If the continuation fails at every closing point, the group fails. -/
theorem closeSeq_none (t : GTag) (K : List RElem) (u v : List Char)
    (h : ∀ k, k ≤ u.length → rmatch K (u.drop k ++ v) = none) :
    ∀ acc, closeSeq t K acc u v = none := by
  induction u with
  | nil =>
    intro acc
    rw [closeSeq, show rmatch K v = none from by simpa using h 0 (by simp)]
    rfl
  | cons c u ih =>
    intro acc
    rw [closeSeq, ih (fun k hk => by simpa using h (k + 1) (by simp; omega)),
      show rmatch K ((c :: u) ++ v) = none from by simpa using h 0 (by simp)]
    rfl

/-- If the continuation fails at every closing point except the full run,
the group captures the whole run. -/
theorem closeSeq_last (t : GTag) (K : List RElem) (u v : List Char)
    (h : ∀ k, k < u.length → rmatch K (u.drop k ++ v) = none) :
    ∀ acc, closeSeq t K acc u v = (rmatch K v).map (setCap t (acc ++ u)) := by
  induction u with
  | nil =>
    intro acc
    rw [closeSeq, List.append_nil]
  | cons c u ih =>
    intro acc
    rw [closeSeq, ih (fun k hk => by simpa using h (k + 1) (by simp; omega)),
      show rmatch K ((c :: u) ++ v) = none from by simpa using h 0 (by simp),
      Option.map_none', ore_none_right, ← List.append_cons]

/-- Splitting a run: once the closings inside `u2` already succeed,
the closings of `u1 ++ u2` coincide with them (they are tried first). -/
theorem closeSeq_split (t : GTag) (K : List RElem) (u1 u2 v : List Char) :
    ∀ acc, (closeSeq t K (acc ++ u1) u2 v).isSome = true →
      closeSeq t K acc (u1 ++ u2) v = closeSeq t K (acc ++ u1) u2 v := by
  induction u1 with
  | nil =>
    intro acc h
    rw [List.nil_append, List.append_nil]
  | cons c u1 ih =>
    intro acc h
    rw [List.append_cons] at h
    rw [List.cons_append, closeSeq, ih (acc ++ [c]) h,
      ore_isSome_left _ _ h, ← List.append_cons]

/-- The filter pattern decomposes into the stages above. -/
theorem filterPattern_decomp :
    filterPattern = .star isSpc :: .gplus .hp notSpc :: hpCont := rfl

/-- The continuation after a group run fails when the next character is
neither whitespace nor the literal the pattern expects. -/
theorem hpCont_fail (c : Char) (s : List Char)
    (hs : isSpc c = false) (hd : c ≠ '-') :
    rmatch hpCont (c :: s) = none := by
  rw [hpCont, rmatch_star_cons, if_neg (by rw [hs]; simp), rmatch_lit_cons,
    if_neg hd]

/-- The continuation also fails on the single space before the literal
`kHz` text: the optional space is consumed (or not) but no `-` follows. -/
theorem hpCont_fail_space (s : List Char) :
    rmatch hpCont (' ' :: 'k' :: s) = none := by
  rw [hpCont, rmatch_star_cons, if_pos (by decide),
    rmatch_star_cons, if_neg (by decide),
    rmatch_lit_cons, if_neg (by decide),
    rmatch_lit_cons, if_neg (by decide)]
  rfl

/-- `\s+` fails on a non-space head. -/
theorem lpCont_fail (c : Char) (s : List Char) (hs : isSpc c = false) :
    rmatch lpCont (c :: s) = none := by
  rw [lpCont, rmatch_cls_cons, if_neg (by rw [hs]; simp)]

/-- Evaluation of the concrete tail ` kHz, order <digit>`. -/
theorem lpCont_eval (k : ℕ) (hk : k < 10) :
    rmatch lpCont
      (' ' :: 'k' :: 'H' :: 'z' :: ',' :: ' ' :: 'o' :: 'r' :: 'd' :: 'e' :: 'r' :: ' '
        :: [Char.ofNat (48 + k)])
      = some ⟨none, none, some [Char.ofNat (48 + k)]⟩ := by
  interval_cases k <;> decide

/-- Stage lemma for the `lp` group: on `B ++ " …"` with `B` nonempty and
space-free, the group greedily captures exactly `B` and hands the rest to
the continuation. -/
theorem lp_stage (B T : List Char) (hB : B ≠ [])
    (hok : ∀ c ∈ B, isSpc c = false) :
    rmatch lpPat (B ++ ' ' :: T) = (rmatch lpCont (' ' :: T)).map (setCap .lp B) := by
  obtain ⟨b, B', rfl⟩ : ∃ b B', B = b :: B' := by
    cases B with
    | nil => simp at hB
    | cons b B' => exact ⟨b, B', rfl⟩
  have hb : isSpc b = false := hok b (by simp)
  rw [List.cons_append, lpPat, rmatch_star_cons, if_neg (by rw [hb]; simp),
    rmatch_gplus_cons, if_pos (by rw [notSpc, hb]; rfl),
    gext_eq_closeSeq .lp notSpc lpCont B'
      (fun c hc => by rw [notSpc, hok c (by simp [hc])]; rfl)
      (' ' :: T) (fun c s' hv => by cases hv; decide) [b],
    closeSeq_last .lp lpCont B' (' ' :: T) (fun k hk => ?_) [b]]
  · rfl
  · rw [List.drop_eq_getElem_cons hk, List.cons_append]
    exact lpCont_fail _ _ (hok _ (List.mem_cons_of_mem b (List.getElem_mem hk)))

/-- Stage lemma for the whole pattern on an encoded line
`A-B kHz, order <digit>`: the `hp` group backtracks to the unique `-` and
captures `A`, the `lp` group captures `B`. -/
theorem hp_stage (A B T2 : List Char) (hA : A ≠ []) (hB : B ≠ [])
    (hokA : ∀ c ∈ A, isSpc c = false ∧ c ≠ '-')
    (hokB : ∀ c ∈ B, isSpc c = false ∧ c ≠ '-')
    (hsome : (rmatch lpCont (' ' :: 'k' :: T2)).isSome = true) :
    rmatch filterPattern (A ++ '-' :: (B ++ (' ' :: 'k' :: T2)))
      = ((rmatch lpCont (' ' :: 'k' :: T2)).map (setCap .lp B)).map (setCap .hp A) := by
  obtain ⟨a, A', rfl⟩ : ∃ a A', A = a :: A' := by
    cases A with
    | nil => simp at hA
    | cons a A' => exact ⟨a, A', rfl⟩
  have ha := hokA a (by simp)
  have hinner : closeSeq .hp hpCont ([a] ++ A') ('-' :: B) (' ' :: 'k' :: T2)
      = ((rmatch lpCont (' ' :: 'k' :: T2)).map (setCap .lp B)).map
          (setCap .hp ([a] ++ A')) := by
    rw [closeSeq,
      closeSeq_none .hp hpCont B (' ' :: 'k' :: T2) (fun k hk => ?_) (([a] ++ A') ++ ['-']),
      ore_none_left, List.cons_append, List.cons_append, hpCont, rmatch_star_cons,
      if_neg (by decide), rmatch_lit_cons, if_pos rfl,
      lp_stage B ('k' :: T2) hB (fun c hc => (hokB c hc).1)]
    · rcases Nat.lt_or_ge k B.length with hlt | hge
      · rw [List.drop_eq_getElem_cons hlt, List.cons_append]
        exact hpCont_fail _ _ (hokB _ (List.getElem_mem hlt)).1
          (hokB _ (List.getElem_mem hlt)).2
      · rw [List.drop_eq_nil_of_le hge, List.nil_append]
        exact hpCont_fail_space T2
  have hsome2 : (closeSeq .hp hpCont ([a] ++ A') ('-' :: B) (' ' :: 'k' :: T2)).isSome
      = true := by
    rw [hinner]
    simpa using hsome
  have hall : ∀ c ∈ (a :: A') ++ '-' :: B, notSpc c = true := by
    intro c hc
    rcases List.mem_append.mp hc with hc1 | hc2
    · rw [notSpc, (hokA c hc1).1]; rfl
    · rcases List.mem_cons.mp hc2 with rfl | hc3
      · decide
      · rw [notSpc, (hokB c hc3).1]; rfl
  rw [filterPattern_decomp, List.cons_append, rmatch_star_cons, if_neg (by rw [ha.1]; simp),
    rmatch_gplus_cons, if_pos (by rw [notSpc, ha.1]; rfl),
    show A' ++ '-' :: (B ++ (' ' :: 'k' :: T2)) = (A' ++ '-' :: B) ++ (' ' :: 'k' :: T2)
      from by simp,
    gext_eq_closeSeq .hp notSpc hpCont (A' ++ '-' :: B)
      (fun c hc => hall c (List.mem_cons_of_mem a hc))
      (' ' :: 'k' :: T2) (fun c s' hv => by cases hv; decide) [a],
    closeSeq_split .hp hpCont A' ('-' :: B) (' ' :: 'k' :: T2) [a] hsome2, hinner]
  rfl

/-- A well-formed optional-frequency token is nonempty and contains neither
whitespace nor the separator. -/
theorem tokOf_ok (g : Option (List Char))
    (hg : ∀ s, g = some s → isFreqTok s = true) :
    tokOf g ≠ [] ∧ ∀ c ∈ tokOf g, isSpc c = false ∧ c ≠ '-' := by
  cases g with
  | none => exact ⟨by decide, by decide⟩
  | some s =>
    have h := hg s rfl
    rw [isFreqTok, Bool.and_eq_true, Bool.and_eq_true] at h
    obtain ⟨⟨h1, h2⟩, _⟩ := h
    refine ⟨by simpa using h1, ?_⟩
    intro c hc
    have hcc := List.all_eq_true.mp h2 c hc
    rw [Bool.and_eq_true] at hcc
    exact ⟨by simpa using hcc.1, by simpa using hcc.2⟩

/-- `khz_or_none` on the encoded token computes the decoded frequency. -/
theorem khzOrNone_tokOf (g : Option (List Char)) :
    khzOrNone (some (tokOf g)) = g.bind fun s => (decParse s).map fun q => 1000 * q := by
  cases g with
  | none =>
    show khzOrNone (some (("none").data)) = none
    exact khzOrNone_fail _ (by decide)
  | some s => rfl

/-- The order group, a single digit, converts to that digit's value. -/
theorem ordVal_digit (k : ℕ) (hk : k < 10) :
    ordVal (some [Char.ofNat (48 + k)]) = (k : ℤ) := by
  interval_cases k <;> decide

/-- C4 (amended): encoding a triple of optional frequency tokens and a
single-digit order as `"<hp>-<lp> kHz, order <k>"` (`none` standing for an
absent frequency, each present token nonempty, free of whitespace and of
`-`, and accepted by `float`, per `isFreqTok`) and parsing the line
recovers the decoded frequencies scaled to Hz and the order digit;
`"none-none kHz, order 0"` yields `(none, none, 0)`, and any line the
pattern rejects yields `(none, none, 0)`.  Both restrictions are
necessary and fail on the unrestricted claim (see the counterexample):
the order group of the pattern is `\d`, one digit, so a two-digit order
loses its second digit; and a token containing `-` (such as the literal
`1e-05` Python prints for small floats) derails the round trip, because
the greedy `hp` group backtracks only to the last workable `-` of the
line. -/
theorem C4_filter_round_trip (hp lp : Option (List Char)) (k : ℕ)
    (hhp : ∀ s, hp = some s → isFreqTok s = true)
    (hlp : ∀ s, lp = some s → isFreqTok s = true)
    (hk : k < 10) :
    (parse_filter_setup_line (encodeFilter hp lp k)
        = (hp.bind fun s => (decParse s).map fun q => 1000 * q,
           lp.bind fun s => (decParse s).map fun q => 1000 * q,
           (k : ℤ)))
      ∧ parse_filter_setup_line (("none-none kHz, order 0").data) = (none, none, 0)
      ∧ ∀ line, rmatch filterPattern line = none →
          parse_filter_setup_line line = (none, none, 0) := by
  refine ⟨?_, ?_, ?_⟩
  · obtain ⟨hA, hokA⟩ := tokOf_ok hp hhp
    obtain ⟨hB, hokB⟩ := tokOf_ok lp hlp
    have hm := hp_stage (tokOf hp) (tokOf lp)
        ('H' :: 'z' :: ',' :: ' ' :: 'o' :: 'r' :: 'd' :: 'e' :: 'r' :: ' '
          :: [Char.ofNat (48 + k)])
        hA hB hokA hokB (by rw [lpCont_eval k hk]; rfl)
    rw [parse_filter_setup_line, encodeFilter, hm, lpCont_eval k hk]
    dsimp only [Option.map, setCap]
    rw [khzOrNone_tokOf hp, khzOrNone_tokOf lp, ordVal_digit k hk]
    rfl
  · rw [parse_filter_setup_line,
      show rmatch filterPattern (("none-none kHz, order 0").data) =
        some ⟨some (("none").data), some (("none").data), some ['0']⟩ from by decide]
    show (khzOrNone (some (("none").data)), khzOrNone (some (("none").data)),
      ordVal (some ['0'])) = (none, none, 0)
    rw [khzOrNone_fail _ (by decide)]
    decide
  · intro line hline
    rw [parse_filter_setup_line, hline]

/-- C4 counterexamples to the unrestricted round trip.  The order group is
a single digit, so `"none-none kHz, order 12"` recovers order `1`, not
`12`.  And a frequency token containing `-` breaks the round trip: on
`"none-1e-05 kHz, order 4"` (the token `1e-05` is how Python prints
`0.01 Hz` in kHz, and `float` accepts it) the greedy `hp` group backtracks
to the last workable `-` and captures `none-1e`, leaving `lp = "05"`, so
the parse yields `(none, 5000 Hz, 4)` instead of recovering
`(none, 0.01 Hz, 4)`. -/
theorem C4_filter_round_trip_counterexample :
    (parse_filter_setup_line (("none-none kHz, order 12").data) = (none, none, 1)
      ∧ (1 : ℤ) ≠ 12)
    ∧ (rmatch filterPattern (("none-1e-05 kHz, order 4").data) =
        some ⟨some (("none-1e").data), some (("05").data), some ['4']⟩
      ∧ parse_filter_setup_line (("none-1e-05 kHz, order 4").data) = (none, some 5000, 4)
      ∧ khzOrNone (some (("1e-05").data)) = some ((1 : ℚ)/100)
      ∧ ((1 : ℚ)/100) ≠ 5000) := by
  refine ⟨⟨?_, by decide⟩, ?_, ?_, ?_, by norm_num⟩
  · rw [parse_filter_setup_line,
      show rmatch filterPattern (("none-none kHz, order 12").data) =
        some ⟨some (("none").data), some (("none").data), some ['1']⟩ from by decide]
    show (khzOrNone (some (("none").data)), khzOrNone (some (("none").data)),
      ordVal (some ['1'])) = (none, none, 1)
    rw [khzOrNone_fail _ (by decide)]
    decide
  · decide
  · rw [parse_filter_setup_line,
      show rmatch filterPattern (("none-1e-05 kHz, order 4").data) =
        some ⟨some (("none-1e").data), some (("05").data), some ['4']⟩ from by decide]
    show (khzOrNone (some (("none-1e").data)), khzOrNone (some (("05").data)),
      ordVal (some ['4'])) = (none, some 5000, 4)
    rw [khzOrNone_fail _ (by decide), khzOrNone_eval _ (1, 5, 0, 0, 0) (by decide)]
    norm_num [decVal]
    decide
  · rw [khzOrNone_eval _ (1, 1, 0, 0, -5) (by decide)]
    norm_num [decVal]

theorem C4_filter_round_trip_witness :
    (∀ s, (some (("10.5").data) : Option (List Char)) = some s → isFreqTok s = true)
    ∧ (∀ s, (none : Option (List Char)) = some s → isFreqTok s = true)
    ∧ 4 < 10
    ∧ ((parse_filter_setup_line (encodeFilter (some (("10.5").data)) none 4)
        = ((some (("10.5").data)).bind fun s => (decParse s).map fun q => 1000 * q,
           (none : Option (List Char)).bind fun s => (decParse s).map fun q => 1000 * q,
           ((4 : ℕ) : ℤ)))
      ∧ parse_filter_setup_line (("none-none kHz, order 0").data) = (none, none, 0)
      ∧ ∀ line, rmatch filterPattern line = none →
          parse_filter_setup_line line = (none, none, 0)) := by
  refine ⟨?_, ?_, by decide, C4_filter_round_trip _ _ _ ?_ ?_ (by decide)⟩
  · intro s hs; cases hs; decide
  · intro s hs; cases hs
  · intro s hs; cases hs; decide
  · intro s hs; cases hs
